import Mathlib

/-!
Verification of the btc-intelligence-hub trading core against its
natural-language specification.

Shallow embedding conventions:
* Python floats are modelled as exact rationals (`ℚ`).
* Python strings (direction, timeframe, level type, method tags) are `String`.
* `dict.get(key, default)` on optional scalars is `Option` plus `getD`.
* Python truthiness of a float (`if x:`) is `x ≠ 0`; of `None` it is `none`.
* `round(x, 2)` is `round2` below (round-half-to-even on exact rationals,
  which agrees with Python's rounding away from exact decimal ties).
* In-place mutation of per-call "last method used" fields is replaced by
  returning the method tag alongside each produced value.
-/

/-! ## Rounding utilities -/

/-- Floor of a rational as an integer (`q.num / q.den` with euclidean division). -/
def qfloor (q : ℚ) : ℤ := q.num / (q.den : ℤ)

theorem qfloor_eq_floor (q : ℚ) : qfloor q = ⌊q⌋ := (Rat.floor_def).symm

theorem qfloor_le (q : ℚ) : (qfloor q : ℚ) ≤ q := by
  rw [qfloor_eq_floor]; exact Int.floor_le q

theorem lt_qfloor_add_one (q : ℚ) : q < qfloor q + 1 := by
  rw [qfloor_eq_floor]; exact_mod_cast Int.lt_floor_add_one q

theorem qfloor_unique {q : ℚ} {z : ℤ} (h1 : (z : ℚ) ≤ q) (h2 : q < z + 1) : qfloor q = z := by
  rw [qfloor_eq_floor]
  rw [Int.floor_eq_iff]
  constructor
  · exact h1
  · exact_mod_cast h2

/-- Round to the nearest integer, ties to even (Python's `round`). -/
def roundHalfEven (x : ℚ) : ℤ :=
  let f := qfloor x
  let r := x - f
  if r < 1/2 then f else if 1/2 < r then f + 1 else if f % 2 = 0 then f else f + 1

/-- Python's `round(x, 2)`. -/
def round2 (x : ℚ) : ℚ := (roundHalfEven (x * 100) : ℚ) / 100

/-- Python's `round(x, 1)`. -/
def round1 (x : ℚ) : ℚ := (roundHalfEven (x * 10) : ℚ) / 10

theorem roundHalfEven_eval {x : ℚ} {z : ℤ} (h1 : (z : ℚ) ≤ x) (h2 : x < z + 1) :
    roundHalfEven x =
      if x - z < 1/2 then z else if 1/2 < x - z then z + 1 else if z % 2 = 0 then z else z + 1 := by
  rw [roundHalfEven]
  simp only [qfloor_unique h1 h2]

theorem roundHalfEven_le_int {x : ℚ} {z : ℤ} (h : x ≤ z) : roundHalfEven x ≤ z := by
  have a := qfloor_le x
  have hfz : qfloor x ≤ z := by exact_mod_cast le_trans a h
  rw [roundHalfEven]
  by_cases h1 : x - qfloor x < 1/2
  · simp only [h1, if_pos]; omega
  · have hlt : (qfloor x : ℚ) < x := by
      rcases lt_or_eq_of_le a with hc | hc
      · exact hc
      · exfalso
        rw [← hc] at h1
        rw [show qfloor ((qfloor x : ℤ) : ℚ) = qfloor x by
          rw [qfloor_eq_floor, Int.floor_intCast]] at h1
        simp at h1
    have hfz2 : qfloor x < z := by exact_mod_cast lt_of_lt_of_le hlt h
    rw [if_neg h1]
    split
    · omega
    · split <;> omega

theorem int_le_roundHalfEven {x : ℚ} {z : ℤ} (h : (z : ℚ) ≤ x) : z ≤ roundHalfEven x := by
  have b := lt_qfloor_add_one x
  have hzf : z ≤ qfloor x := by
    have h3 : (z : ℚ) < qfloor x + 1 := lt_of_le_of_lt h b
    have h4 : z < qfloor x + 1 := by exact_mod_cast h3
    omega
  rw [roundHalfEven]
  split
  · omega
  · split
    · omega
    · split <;> omega

theorem round2_le_of_le {x c : ℚ} {k : ℤ} (hc : c = (k : ℚ) / 100) (h : x ≤ c) :
    round2 x ≤ c := by
  rw [round2, hc]
  have h100 : x * 100 ≤ (k : ℚ) := by rw [hc] at h; nlinarith
  have h2 := roundHalfEven_le_int h100
  have hq : ((roundHalfEven (x * 100)) : ℚ) ≤ (k : ℚ) := by exact_mod_cast h2
  linarith

theorem le_round2_of_le {x c : ℚ} {k : ℤ} (hc : c = (k : ℚ) / 100) (h : c ≤ x) :
    c ≤ round2 x := by
  rw [round2, hc]
  have h100 : (k : ℚ) ≤ x * 100 := by rw [hc] at h; nlinarith
  have h2 := int_le_roundHalfEven h100
  have hq : (k : ℚ) ≤ ((roundHalfEven (x * 100)) : ℚ) := by exact_mod_cast h2
  linarith

/-! ## Shared data model (`btc_intel/trading/__init__.py`) -/

/-- `SwingPoint` dataclass. -/
structure SwingPoint where
  price : ℚ
  type : String
  date : String
  timeframe : String
  percent_move : ℚ := 0
deriving DecidableEq, Repr

/-- `PriceLevel` dataclass. -/
structure PriceLevel where
  price : ℚ
  type : String
  strength : ℤ := 0
  source : List String := []
  timeframes : List String := []
  touch_count : ℕ := 0
  last_touch_date : Option String := none
  visible_in_timeframes : ℕ := 1
  coincides_with_fib : Bool := false
  fib_level : Option ℚ := none
  is_role_flip : Bool := false
  flip_date : Option String := none
  is_high_volume_zone : Bool := false
  is_psychological : Bool := false
  last_touch_days : ℤ := 999
deriving DecidableEq, Repr

/-- `CandlePattern` dataclass. -/
structure CandlePattern where
  pattern : String
  direction : String
  strength : ℤ
  candles : ℕ
deriving DecidableEq, Repr

/-! ## Level scorer (`trading/levels/level_scorer.py`) -/

/-- `score_level`: sequential accumulation exactly as in the source. -/
def score_level (level : PriceLevel) : ℤ :=
  let s1 := min ((level.touch_count : ℤ) * 2) 8
  let s2 := s1 + (if level.visible_in_timeframes ≥ 3 then 4
                  else if level.visible_in_timeframes ≥ 2 then 2 else 0)
  let s3 := s2 + (if level.coincides_with_fib then 3 else 0)
  let s4 := s3 + (if level.is_role_flip then 3 else 0)
  let s5 := s4 + (if level.is_high_volume_zone then 2 else 0)
  let s6 := s5 + (if level.is_psychological then 1 else 0)
  let s7 := s6 + (if level.last_touch_days < 30 then 1 else 0)
  min s7 20

/-- `classify_level`. -/
def classify_level (score : ℤ) : String :=
  if score ≥ 15 then "critical"
  else if score ≥ 10 then "strong"
  else if score ≥ 5 then "moderate"
  else "weak"

/-- The level-score formula exactly as the specification states it
(single sum of seven independent terms). -/
def specLevelScore (l : PriceLevel) : ℤ :=
  min ((l.touch_count : ℤ) * 2) 8
    + (if l.visible_in_timeframes ≥ 3 then 4 else if l.visible_in_timeframes ≥ 2 then 2 else 0)
    + (if l.coincides_with_fib then 3 else 0)
    + (if l.is_role_flip then 3 else 0)
    + (if l.is_high_volume_zone then 2 else 0)
    + (if l.is_psychological then 1 else 0)
    + (if l.last_touch_days < 30 then 1 else 0)

/-- The level of the specification's scoring scenario: 5 touches, 3 timeframes,
every boolean bonus, recent touch. -/
def scenarioLevel : PriceLevel :=
  { price := 100000, type := "support", touch_count := 5, visible_in_timeframes := 3,
    coincides_with_fib := true, is_role_flip := true, is_high_volume_zone := true,
    is_psychological := true, last_touch_days := 10 }

/-- C7: the level score equals the specification's seven-term formula clamped
to 20, hence always lies in [0, 20]; classification maps score ≥15 to critical,
≥10 to strong, ≥5 to moderate, else weak; and the scenario level (5 touches,
3 timeframes, all bonuses, recent touch) sums to 22, is clamped to 20 and is
classified critical. -/
theorem C7_level_score_formula :
    (∀ l : PriceLevel, score_level l = min (specLevelScore l) 20)
    ∧ (∀ l : PriceLevel, 0 ≤ score_level l ∧ score_level l ≤ 20)
    ∧ (∀ s : ℤ, classify_level s =
        if 15 ≤ s then "critical" else if 10 ≤ s then "strong"
        else if 5 ≤ s then "moderate" else "weak")
    ∧ specLevelScore scenarioLevel = 22
    ∧ score_level scenarioLevel = 20
    ∧ classify_level (score_level scenarioLevel) = "critical" := by
  refine ⟨?_, ?_, ?_, ?_, ?_, ?_⟩
  · intro l
    rfl
  · intro l
    unfold score_level
    dsimp only
    constructor
    · split_ifs <;> omega
    · split_ifs <;> omega
  · intro s
    rfl
  · decide
  · decide
  · decide

/-! ## Extended signal scorer (`trading/extended_scorer.py`) -/

/-- Module-level `_near` helper shared by the scorer and the TP/SL calculator
(identical bodies in both source files). -/
def pyNear (a b tol : ℚ) : Bool :=
  if b = 0 then false else |a - b| / b * 100 ≤ tol

/-- Retracement/extension entry as consumed via `r["ratio"]` / `r["price"]`. -/
structure FibRP where
  ratio : ℚ
  price : ℚ
deriving DecidableEq, Repr

/-- Fibonacci analysis dict as consumed by the scorer and TP/SL calculator. -/
structure FibDict where
  retracements : List FibRP := []
  extensions : List FibRP := []
deriving DecidableEq, Repr

/-- Confluence dict as consumed by the scorer. -/
structure ConfDict where
  price : ℚ
  num_timeframes : ℕ := 0
deriving DecidableEq, Repr

/-- On-chain dict (`fear_greed`, `funding_rate`, `oi_change_pct`). -/
structure OnchainData where
  fear_greed : Option ℚ := none
  funding_rate : Option ℚ := none
  oi_change_pct : Option ℚ := none
deriving DecidableEq, Repr

/-- Indicators dict as consumed by the scorer. -/
structure IndicatorData where
  volume : Option ℚ := none
  sma20_volume : Option ℚ := none
  ema_21 : Option ℚ := none
deriving DecidableEq, Repr

/-- `_calc_level_bonus` (cap 20). -/
def calcLevelBonus (price : ℚ) (levels : List PriceLevel) (fibs : Option FibDict)
    (confluences : List ConfDict) : ℤ :=
  let nearby := levels.filter (fun lv => pyNear price lv.price 1)
  let gran := nearby.filter (fun lv => lv.strength ≥ 10)
  let b1 : ℤ := if gran ≠ [] then 8 else 0
  let atGoldenPocket : Bool :=
    match fibs with
    | none => false
    | some f => f.retracements.any
        (fun r => (r.ratio == 0.618 || r.ratio == 0.650) && pyNear price r.price 1)
  let b2 : ℤ := if atGoldenPocket = true then 7 else 0
  let b3 : ℤ := if confluences.any
      (fun c => pyNear price c.price 1 && c.num_timeframes ≥ 2) then 6 else 0
  let b4 : ℤ :=
    if atGoldenPocket = false ∧ gran ≠ [] then
      match fibs with
      | none => 0
      | some f => if f.retracements.any (fun r => pyNear price r.price 1) then 5 else 0
    else 0
  let b5 : ℤ := if nearby.any (fun lv => lv.is_role_flip) then 4 else 0
  let b6 : ℤ := if nearby.any (fun lv => lv.is_psychological) then 1 else 0
  min (b1 + b2 + b3 + b4 + b5 + b6) 20

/-- `_calc_candle_bonus` (cap 10). Python's `max(matching, key=strength)` keeps
the first maximal element; only its strength is inspected. -/
def maxStrength : List CandlePattern → ℤ
  | [] => 0
  | p :: ps => ps.foldl (fun a q => if q.strength > a then q.strength else a) p.strength

def calcCandleBonus (patterns : List CandlePattern) (price : ℚ) (direction : String)
    (levels : List PriceLevel) (indicators : IndicatorData) : ℤ :=
  if patterns = [] then 0
  else
    let matching := patterns.filter (fun p => p.direction == direction)
    if matching = [] then 0
    else
      let strongest := maxStrength matching
      let atLevel := levels.any (fun lv => lv.strength ≥ 8 && pyNear price lv.price 1)
      let b1 : ℤ :=
        if strongest ≥ 7 ∧ atLevel then 8
        else if strongest ≥ 5 ∧ atLevel then 5
        else if strongest ≥ 7 then 4 else 0
      let volume := indicators.volume.getD 0
      let sma := indicators.sma20_volume.getD 0
      let b2 : ℤ := if sma > 0 ∧ volume > sma then 2 else 0
      min (b1 + b2) 10

/-- `_calc_onchain_bonus` (cap 10, 4H/1D/1W only). -/
def calcOnchainBonus (onchain : OnchainData) (direction timeframe : String) : ℤ :=
  if ¬ (timeframe = "4H" ∨ timeframe = "1D" ∨ timeframe = "1W") then 0
  else
    let b1 : ℤ :=
      match onchain.fear_greed with
      | none => 0
      | some fg =>
          if fg < 20 ∧ direction = "LONG" then 4
          else if fg > 80 ∧ direction = "SHORT" then 4 else 0
    let b2 : ℤ :=
      match onchain.funding_rate with
      | none => 0
      | some fr =>
          if fr > 0.05 ∧ direction = "SHORT" then 3
          else if fr < -0.03 ∧ direction = "LONG" then 3 else 0
    let b3 : ℤ :=
      match onchain.oi_change_pct with
      | none => 0
      | some oi => if oi < -10 then 3 else 0
    min (b1 + b2 + b3) 10

/-- `_calc_penalties` (floor −15). Python's `if htf_direction and ...` treats
the empty string as falsy. -/
def calcPenalties (price : ℚ) (direction timeframe : String) (levels : List PriceLevel)
    (indicators : IndicatorData) (onchain : OnchainData) (htf : Option String) : ℤ :=
  let _ := timeframe
  let p1 : ℤ :=
    if ¬ levels.any (fun lv => lv.strength ≥ 6 && pyNear price lv.price 2) then -5 else 0
  let p2 : ℤ :=
    match htf with
    | none => 0
    | some h => if h ≠ "" ∧ h ≠ direction then -8 else 0
  let p3 : ℤ :=
    match indicators.ema_21 with
    | none => 0
    | some e => if e ≠ 0 ∧ e > 0 then (if |price - e| / e * 100 > 5 then -5 else 0) else 0
  let volume := indicators.volume.getD 0
  let sma := indicators.sma20_volume.getD 0
  let p4 : ℤ := if sma > 0 ∧ volume < sma * 0.7 then -3 else 0
  let p5 : ℤ :=
    match onchain.fear_greed with
    | none => 0
    | some fg =>
        if direction = "LONG" ∧ fg > 85 then -5
        else if direction = "SHORT" ∧ fg < 15 then -5 else 0
  max (p1 + p2 + p3 + p4 + p5) (-15)

/-- `_classify`. -/
def classifyScore (score : ℤ) : String :=
  if score ≥ 85 then "PREMIUM"
  else if score ≥ 70 then "STRONG"
  else if score ≥ 55 then "VALID"
  else if score ≥ 40 then "WEAK"
  else "REJECTED"

/-- Result dict of `ExtendedSignalScorer.calculate`. -/
structure ScoreResult where
  base_confidence : ℚ
  bonus_levels : ℤ
  bonus_candles : ℤ
  bonus_onchain : ℤ
  penalties : ℤ
  final_score : ℤ
  classification : String
deriving DecidableEq, Repr

/-- `ExtendedSignalScorer.calculate`. -/
def scorerCalculate (base_confidence price : ℚ) (direction timeframe : String)
    (levels : List PriceLevel) (fibs : Option FibDict) (confluences : List ConfDict)
    (candle_patterns : List CandlePattern) (onchain : OnchainData)
    (indicators : IndicatorData) (htf : Option String) : ScoreResult :=
  let bl := min (calcLevelBonus price levels fibs confluences) 20
  let bc := min (calcCandleBonus candle_patterns price direction levels indicators) 10
  let bo := min (calcOnchainBonus onchain direction timeframe) 10
  let pen := max (calcPenalties price direction timeframe levels indicators onchain htf) (-15)
  let raw := base_confidence + bl + bc + bo + pen
  let final := max 0 (min 100 (roundHalfEven raw))
  { base_confidence := round1 base_confidence
    bonus_levels := bl
    bonus_candles := bc
    bonus_onchain := bo
    penalties := pen
    final_score := final
    classification := classifyScore final }

/-- The extended-scorer scenario input: one strength-10 level at the current
price, nothing else supplied. -/
def c3Level : PriceLevel := { price := 100000, type := "support", strength := 10 }

/-- The scorer result for the scenario (base 60, LONG, 1D). -/
def c3Run : ScoreResult :=
  scorerCalculate 60 100000 "LONG" "1D" [c3Level] none [] [] {} {} none

theorem c3Run_eval :
    c3Run = { base_confidence := 60, bonus_levels := 8, bonus_candles := 0,
              bonus_onchain := 0, penalties := 0, final_score := 68,
              classification := "VALID" } := by
  have h68 : roundHalfEven (68 : ℚ) = 68 := by
    rw [roundHalfEven_eval (z := 68) (by norm_num) (by norm_num)]; norm_num
  have h60 : round1 (60 : ℚ) = 60 := by
    rw [round1, roundHalfEven_eval (z := 600) (by norm_num) (by norm_num)]; norm_num
  norm_num [c3Run, c3Level, scorerCalculate, calcLevelBonus, calcCandleBonus,
    calcOnchainBonus, calcPenalties, classifyScore, pyNear, List.filter, List.any,
    h60, h68]

/-- C3 counterexample: on the stated input (base 60, one strength-10 level
within 1%, nothing else) the scorer returns final_score 68 but classification
"VALID", not "STRONG" as the claim asserts. -/
theorem C3_counterexample :
    c3Run.final_score = 68 ∧ c3Run.classification = "VALID"
      ∧ "VALID" ≠ "STRONG" := by
  refine ⟨?_, ?_, by decide⟩
  · rw [c3Run_eval]
  · rw [c3Run_eval]

/-- C3 (amended): for base_confidence 60 with exactly one strength-10 level
within 1% of price and no other bonus or penalty triggers, the result is
bonus_levels = 8, final_score = 68, and classification "VALID" (68 lies in the
[55, 70) VALID band, below the 70 STRONG threshold). -/
theorem C3_amended_scorer_scenario :
    c3Run = { base_confidence := 60, bonus_levels := 8, bonus_candles := 0,
              bonus_onchain := 0, penalties := 0, final_score := 68,
              classification := "VALID" } := c3Run_eval

/-! ## TP/SL backtest evaluator (`analysis/backtesting.py`, `_evaluate_tpsl`) -/

/-- One OHLC row as consumed by the evaluator (it reads only high/low/date). -/
structure PriceBar where
  high : ℚ
  low : ℚ
  date : String
deriving DecidableEq, Repr

/-- Python's `tp2 and tp1_hit and high >= tp2` (a missing or zero TP2 is
falsy). -/
def tp2CondLong (tp2 : Option ℚ) (tp1Hit : Bool) (hi : ℚ) : Bool :=
  match tp2 with
  | some v => v ≠ 0 ∧ tp1Hit = true ∧ hi ≥ v
  | none => false

/-- Python's `tp2 and tp1_hit and low <= tp2` for the SHORT branch. -/
def tp2CondShort (tp2 : Option ℚ) (tp1Hit : Bool) (lo : ℚ) : Bool :=
  match tp2 with
  | some v => v ≠ 0 ∧ tp1Hit = true ∧ lo ≤ v
  | none => false

/-- `_evaluate_tpsl`: scan bars in order, tracking whether TP1 was hit. -/
def evalTPSL (direction : String) (entry sl tp1 : ℚ) (tp2 : Option ℚ) :
    Bool → List PriceBar → String × Option String
  | tp1Hit, [] => if tp1Hit then ("tp1_hit", none) else ("pending", none)
  | tp1Hit, b :: rest =>
    if direction = "LONG" then
      if b.low ≤ sl then ("sl_hit", some b.date)
      else if tp2CondLong tp2 tp1Hit b.high then ("tp2_hit", some b.date)
      else evalTPSL direction entry sl tp1 tp2 (tp1Hit || decide (b.high ≥ tp1)) rest
    else
      if b.high ≥ sl then ("sl_hit", some b.date)
      else if tp2CondShort tp2 tp1Hit b.low then ("tp2_hit", some b.date)
      else evalTPSL direction entry sl tp1 tp2 (tp1Hit || decide (b.low ≤ tp1)) rest

/-- The LONG-direction evaluator exactly as the claim words it: SL first, then
TP2 (only when the TP1 flag was set by an earlier bar), then the TP1 flag. -/
def evalSpecLong (sl tp1 tp2 : ℚ) : Bool → List PriceBar → String × Option String
  | flag, [] => if flag then ("tp1_hit", none) else ("pending", none)
  | flag, b :: rest =>
    if b.low ≤ sl then ("sl_hit", some b.date)
    else if flag ∧ b.high ≥ tp2 then ("tp2_hit", some b.date)
    else if b.high ≥ tp1 then evalSpecLong sl tp1 tp2 true rest
    else evalSpecLong sl tp1 tp2 flag rest

/-- The claim's concrete bar sequence: highs [105,112,108,125], lows
[100,108,104,115]. -/
def c5Bars : List PriceBar :=
  [⟨105, 100, "d1"⟩, ⟨112, 108, "d2"⟩, ⟨108, 104, "d3"⟩, ⟨125, 115, "d4"⟩]

/-- C5: for LONG signals the evaluator behaves exactly as described (bars in
order; SL check first; TP2 only once TP1 was flagged on an earlier bar; TP1
sets the flag; exhaustion yields tp1_hit or pending by the flag), and on
entry=100, sl=95, tp1=110, tp2=120 with the given bars it returns tp2_hit at
the fourth bar. -/
theorem C5_backtest_evaluator :
    (∀ (entry sl tp1 v : ℚ) (flag : Bool) (bars : List PriceBar), v ≠ 0 →
        evalTPSL "LONG" entry sl tp1 (some v) flag bars = evalSpecLong sl tp1 v flag bars)
    ∧ evalTPSL "LONG" 100 95 110 (some 120) false c5Bars = ("tp2_hit", some "d4") := by
  constructor
  · intro entry sl tp1 v flag bars hv
    induction bars generalizing flag with
    | nil => rfl
    | cons b rest ih =>
      rw [evalTPSL, evalSpecLong]
      rw [if_pos rfl]
      have hcond : (tp2CondLong (some v) flag b.high = true) ↔ (flag = true ∧ b.high ≥ v) := by
        simp [tp2CondLong, hv]
      by_cases h1 : b.low ≤ sl
      · rw [if_pos h1, if_pos h1]
      · rw [if_neg h1, if_neg h1]
        by_cases h2 : flag = true ∧ b.high ≥ v
        · rw [if_pos (hcond.mpr h2), if_pos (by simpa using h2)]
        · rw [if_neg (fun hc => h2 (hcond.mp hc)), if_neg (by simpa using h2)]
          by_cases h3 : b.high ≥ tp1
          · rw [if_pos h3]
            simpa [h3] using ih true
          · rw [if_neg h3]
            simpa [h3] using ih flag
  · norm_num +decide [evalTPSL, c5Bars]

/-- C5 witness: the equivalence applied at the scenario input. -/
theorem C5_backtest_evaluator_witness :
    evalTPSL "LONG" 100 95 110 (some 120) false c5Bars
      = evalSpecLong 95 110 120 false c5Bars :=
  C5_backtest_evaluator.1 100 95 110 120 false c5Bars (by norm_num)

/-! ## Candle pattern detector (`trading/candle_patterns.py`) -/

/-- One OHLC candle (`open` is a Lean keyword, hence `open_`). -/
structure Candle where
  open_ : ℚ
  high : ℚ
  low : ℚ
  close : ℚ
deriving DecidableEq, Repr

/-- Fallback candle for indexed access into a list of known length. -/
def dCandle : Candle := ⟨0, 0, 0, 0⟩

/-- `PATTERNS` catalogue lookup used by `_make` (the dict lookup cannot miss at
the call sites; the final arm is unreachable). -/
def mkPattern (id : String) : CandlePattern :=
  if id = "bullish_engulfing" then ⟨id, "LONG", 8, 2⟩
  else if id = "hammer" then ⟨id, "LONG", 7, 1⟩
  else if id = "inverted_hammer" then ⟨id, "LONG", 6, 1⟩
  else if id = "morning_star" then ⟨id, "LONG", 9, 3⟩
  else if id = "three_white_soldiers" then ⟨id, "LONG", 8, 3⟩
  else if id = "bullish_pin_bar" then ⟨id, "LONG", 8, 1⟩
  else if id = "bearish_engulfing" then ⟨id, "SHORT", 8, 2⟩
  else if id = "shooting_star" then ⟨id, "SHORT", 7, 1⟩
  else if id = "evening_star" then ⟨id, "SHORT", 9, 3⟩
  else if id = "three_black_crows" then ⟨id, "SHORT", 8, 3⟩
  else if id = "bearish_pin_bar" then ⟨id, "SHORT", 8, 1⟩
  else if id = "doji" then ⟨id, "NEUTRAL", 3, 1⟩
  else ⟨id, "", 0, 0⟩

/-- `detect_pin_bar`. -/
def detect_pin_bar (c : Candle) (direction : String) : Bool :=
  let body0 := |c.close - c.open_|
  let body := if body0 = 0 then 0.01 else body0
  let upper := c.high - max c.open_ c.close
  let lower := min c.open_ c.close - c.low
  if direction = "LONG" then lower ≥ 2 * body ∧ upper ≤ 0.5 * body
  else upper ≥ 2 * body ∧ lower ≤ 0.5 * body

/-- `detect_engulfing`. -/
def detect_engulfing (prev curr : Candle) (direction : String) : Bool :=
  let prevTop := max prev.open_ prev.close
  let prevBot := min prev.open_ prev.close
  let currTop := max curr.open_ curr.close
  let currBot := min curr.open_ curr.close
  if direction = "LONG" then
    prev.close < prev.open_ ∧ curr.close > curr.open_
      ∧ currTop > prevTop ∧ currBot < prevBot
  else
    prev.close > prev.open_ ∧ curr.close < curr.open_
      ∧ currTop > prevTop ∧ currBot < prevBot

/-- `detect_hammer`. -/
def detect_hammer (c : Candle) : Bool :=
  let body0 := |c.close - c.open_|
  let body := if body0 = 0 then 0.01 else body0
  let upper := c.high - max c.open_ c.close
  let lower := min c.open_ c.close - c.low
  lower ≥ 2 * body ∧ upper ≤ 0.3 * body

/-- `detect_shooting_star`. -/
def detect_shooting_star (c : Candle) : Bool :=
  let body0 := |c.close - c.open_|
  let body := if body0 = 0 then 0.01 else body0
  let upper := c.high - max c.open_ c.close
  let lower := min c.open_ c.close - c.low
  upper ≥ 2 * body ∧ lower ≤ 0.3 * body

/-- `detect_doji`. -/
def detect_doji (c : Candle) : Bool :=
  let range := c.high - c.low
  if range = 0 then false
  else |c.close - c.open_| < 0.10 * range

/-- `detect_morning_star` on the last three candles. -/
def detect_morning_star (c1 c2 c3 : Candle) : Bool :=
  let b1 := |c1.close - c1.open_|
  let b2 := |c2.close - c2.open_|
  if b1 = 0 then false
  else
    c1.close < c1.open_ ∧ c3.close > c3.open_
      ∧ b2 < b1 * 0.5
      ∧ (c2.open_ + c2.close) / 2 < c1.close
      ∧ c3.close > (c1.open_ + c1.close) / 2

/-- `detect_evening_star`. -/
def detect_evening_star (c1 c2 c3 : Candle) : Bool :=
  let b1 := |c1.close - c1.open_|
  let b2 := |c2.close - c2.open_|
  if b1 = 0 then false
  else
    c1.close > c1.open_ ∧ c3.close < c3.open_
      ∧ b2 < b1 * 0.5
      ∧ (c2.open_ + c2.close) / 2 > c1.close
      ∧ c3.close < (c1.open_ + c1.close) / 2

/-- `detect_three_soldiers`. -/
def detect_three_soldiers (c1 c2 c3 : Candle) : Bool :=
  c1.close > c1.open_ ∧ c2.close > c2.open_ ∧ c3.close > c3.open_
    ∧ c2.close > c1.close ∧ c3.close > c2.close

/-- `detect_three_crows`. -/
def detect_three_crows (c1 c2 c3 : Candle) : Bool :=
  c1.close < c1.open_ ∧ c2.close < c2.open_ ∧ c3.close < c3.open_
    ∧ c2.close < c1.close ∧ c3.close < c2.close

/-- `_is_downtrend` over the 5-candle window. -/
def isDowntrend (df : List Candle) : Bool :=
  if df.length < 5 then false
  else (df.getD 0 dCandle).close > (df.getD (df.length - 1) dCandle).close

/-- `detect_all`: every detector against the last five candles, appended in
source order. -/
def detectAll (prices : List Candle) : List CandlePattern :=
  if prices.length < 5 then []
  else
    let df := prices.drop (prices.length - 5)
    let curr := df.getD 4 dCandle
    let prev := df.getD 3 dCandle
    let c2 := df.getD 2 dCandle
    (if detect_hammer curr then [mkPattern "hammer"] else [])
    ++ (if detect_shooting_star curr then [mkPattern "shooting_star"] else [])
    ++ (if detect_doji curr then [mkPattern "doji"] else [])
    ++ (if detect_pin_bar curr "LONG" then [mkPattern "bullish_pin_bar"] else [])
    ++ (if detect_pin_bar curr "SHORT" then [mkPattern "bearish_pin_bar"] else [])
    ++ (if isDowntrend df && detect_shooting_star curr then [mkPattern "inverted_hammer"] else [])
    ++ (if detect_engulfing prev curr "LONG" then [mkPattern "bullish_engulfing"] else [])
    ++ (if detect_engulfing prev curr "SHORT" then [mkPattern "bearish_engulfing"] else [])
    ++ (if detect_morning_star c2 prev curr then [mkPattern "morning_star"] else [])
    ++ (if detect_evening_star c2 prev curr then [mkPattern "evening_star"] else [])
    ++ (if detect_three_soldiers c2 prev curr then [mkPattern "three_white_soldiers"] else [])
    ++ (if detect_three_crows c2 prev curr then [mkPattern "three_black_crows"] else [])

theorem mem_ite_singleton {α} {c : Prop} [Decidable c] {x y : α} :
    (x ∈ (if c then [y] else [])) ↔ (c ∧ x = y) := by
  split <;> simp_all

/-- C10: whenever the detector emits inverted_hammer (LONG, strength 6) it also
emits shooting_star (SHORT, strength 7) for the same most-recent candle — the
inverted-hammer test reuses the shooting-star geometry and both are appended
independently, so one scan reports two opposite-direction patterns. -/
theorem C10_inverted_hammer_implies_shooting_star (prices : List Candle)
    (h : (⟨"inverted_hammer", "LONG", 6, 1⟩ : CandlePattern) ∈ detectAll prices) :
    (⟨"shooting_star", "SHORT", 7, 1⟩ : CandlePattern) ∈ detectAll prices := by
  unfold detectAll at h ⊢
  by_cases hlen : prices.length < 5
  · simp [hlen] at h
  · rw [if_neg hlen] at h ⊢
    simp only [List.mem_append, mem_ite_singleton] at h ⊢
    simp only [mkPattern, CandlePattern.mk.injEq] at h ⊢
    simp +decide at h ⊢
    tauto

/-- Witness candles: four flat candles at 20, then a shooting-star shaped
candle after the net downtrend. -/
def c10Candles : List Candle :=
  [⟨20, 20, 20, 20⟩, ⟨20, 20, 20, 20⟩, ⟨20, 20, 20, 20⟩, ⟨20, 20, 20, 20⟩,
   ⟨10, 10.5, 10, 10.1⟩]

theorem C10_inverted_hammer_witness :
    (⟨"shooting_star", "SHORT", 7, 1⟩ : CandlePattern) ∈ detectAll c10Candles :=
  C10_inverted_hammer_implies_shooting_star c10Candles (by
    have habs : |(1 : ℚ)/10| = 1/10 := abs_of_nonneg (by norm_num)
    have habs0 : |(0 : ℚ)| = 0 := abs_zero
    norm_num +decide [detectAll, c10Candles, detect_hammer, detect_shooting_star,
      detect_doji, detect_pin_bar, detect_engulfing, detect_morning_star,
      detect_evening_star, detect_three_soldiers, detect_three_crows,
      isDowntrend, mkPattern, dCandle, habs, habs0])

/-! ## Role-flip detector (`trading/levels/role_flip.py`) -/

/-- One price-history row as read by the role-flip scan. -/
structure RFBar where
  high : ℚ
  low : ℚ
  close : ℚ
  date : String
deriving DecidableEq, Repr

/-- The per-level scan state: accumulated resistance rejections and whether a
breakout bar has been seen (`breakout_idx is not None`). -/
structure RFState where
  rejections : ℕ
  breakout : Bool
deriving DecidableEq, Repr

/-- Outcome of processing one bar: continue with a new state, or flip
confirmed at this bar's date (the source `break`s out of the loop). -/
inductive RFOut where
  | cont (st : RFState)
  | confirmed (d : String)
deriving DecidableEq, Repr

/-- One iteration of the per-level loop body. -/
def roleFlipStep (price tol : ℚ) (st : RFState) (b : RFBar) : RFOut :=
  if st.breakout = false then
    let r1 := if b.high ≥ price - tol ∧ b.close < price then st.rejections + 1
              else st.rejections
    let bo : Bool := if r1 ≥ 2 ∧ b.close > price then true else false
    .cont ⟨r1, bo⟩
  else
    if b.low ≤ price + tol ∧ b.close > price then .confirmed b.date
    else if b.close < price - tol then .cont ⟨st.rejections, false⟩
    else .cont st

/-- The full per-level scan over the price history. -/
def roleFlipScan (price tol : ℚ) (st : RFState) : List RFBar → Option String
  | [] => none
  | b :: rest =>
    match roleFlipStep price tol st b with
    | .confirmed d => some d
    | .cont st' => roleFlipScan price tol st' rest

/-- `detect_role_flips` applied to a single level (tolerance 0.3% of price). -/
def detect_role_flips_level (level : PriceLevel) (bars : List RFBar) : PriceLevel :=
  let tol := level.price * (0.3 / 100)
  match roleFlipScan level.price tol ⟨0, false⟩ bars with
  | some d => { level with is_role_flip := true, flip_date := some d }
  | none => level

/-- `detect_role_flips`. -/
def detect_role_flips (levels : List PriceLevel) (bars : List RFBar) : List PriceLevel :=
  if bars = [] ∨ levels = [] then levels
  else levels.map (fun lv => detect_role_flips_level lv bars)

/-- Bars around a level at 100: two rejections, breakout, failed retest
(close back below level − tol), immediate new breakout with no intervening
rejection, then a confirming retest. -/
def c4Bars : List RFBar :=
  [⟨100, 90, 99, "d1"⟩, ⟨100, 90, 99, "d2"⟩, ⟨101, 100, 101, "d3"⟩,
   ⟨101, 90, 99, "d4"⟩, ⟨105, 102, 104, "d5"⟩, ⟨104, 100.2, 101, "d6"⟩]

/-- C4 counterexample: after the breakout fails (bar d4 closes below
level − tolerance) the machine keeps rejections = 2 instead of resetting them
to 0; bar d5 counts no new rejection yet immediately re-records a breakout,
and bar d6 then confirms the flip — so a flip is recorded with zero new
rejections after the reset, contradicting the claim. -/
theorem C4_counterexample :
    roleFlipStep 100 0.3 ⟨2, true⟩ ⟨101, 90, 99, "d4"⟩ = .cont ⟨2, false⟩
    ∧ (⟨2, false⟩ : RFState) ≠ ⟨0, false⟩
    ∧ ¬ ((105 : ℚ) ≥ 100 - 0.3 ∧ (104 : ℚ) < 100)
    ∧ roleFlipStep 100 0.3 ⟨2, false⟩ ⟨105, 102, 104, "d5"⟩ = .cont ⟨2, true⟩
    ∧ roleFlipScan 100 0.3 ⟨0, false⟩ c4Bars = some "d6"
    ∧ (detect_role_flips_level { price := 100, type := "resistance" } c4Bars).is_role_flip
        = true := by
  refine ⟨?_, by decide, by norm_num, ?_, ?_, ?_⟩
  · norm_num [roleFlipStep]
  · norm_num [roleFlipStep]
  · norm_num [roleFlipScan, roleFlipStep, c4Bars]
  · norm_num [detect_role_flips_level, roleFlipScan, roleFlipStep, c4Bars]

/-- C4 (amended): when a bar after a breakout closes below level − tolerance
before a retest is confirmed, only the breakout marker is cleared — the
rejection count is retained, not reset; consequently any later bar that closes
above the level immediately re-records a breakout whenever the retained count
is already ≥ 2, with no new rejections required. -/
theorem C4_amended_role_flip_reset (price tol : ℚ) (st : RFState) (b b' : RFBar)
    (hbo : st.breakout = true)
    (hnc : ¬ (b.low ≤ price + tol ∧ b.close > price))
    (hfail : b.close < price - tol)
    (hr2 : st.rejections ≥ 2)
    (hnorej : ¬ (b'.high ≥ price - tol ∧ b'.close < price))
    (hup : b'.close > price) :
    roleFlipStep price tol st b = .cont ⟨st.rejections, false⟩
    ∧ roleFlipStep price tol { rejections := st.rejections, breakout := false } b'
        = .cont ⟨st.rejections, true⟩ := by
  constructor
  · rw [roleFlipStep, if_neg (by simp [hbo]), if_neg hnc, if_pos hfail]
  · rw [roleFlipStep, if_pos rfl]
    simp only [if_neg hnorej]
    rw [if_pos ⟨hr2, hup⟩]

/-- C4 witness: the amended behaviour at the concrete bars d4 and d5. -/
theorem C4_amended_role_flip_reset_witness :
    roleFlipStep 100 0.3 ⟨2, true⟩ ⟨101, 90, 99, "d4"⟩ = .cont ⟨2, false⟩
    ∧ roleFlipStep 100 0.3 ⟨2, false⟩ ⟨105, 102, 104, "d5"⟩ = .cont ⟨2, true⟩ :=
  C4_amended_role_flip_reset 100 0.3 ⟨2, true⟩ ⟨101, 90, 99, "d4"⟩ ⟨105, 102, 104, "d5"⟩
    rfl (by norm_num) (by norm_num) (by norm_num) (by norm_num) (by norm_num)

/-! ## Price level builder (`trading/levels/level_manager.py`, `psychological.py`)

`_swings_to_levels` depends on `datetime.utcnow()` and `strptime`; following
the specification's note that "days since last touch" is the one explicitly
time-dependent input, the date computation is abstracted as an oracle
`daysAgo : String → Option ℤ` mapping a `YYYY-MM-DD` prefix to the day count
(`none` models the `except (ValueError, TypeError)` branch). All statements
hold for every oracle. -/

/-- Python's `s.strip()[:10]` slice used before parsing swing dates. -/
def dateKey (s : String) : String := s.take 10

/-- The per-swing proximity test of `_swings_to_levels` (the source divides by
`existing.price` without a zero guard; existing prices come from the swings). -/
def swingClose (existing : PriceLevel) (s : SwingPoint) : Bool :=
  |s.price - existing.price| / existing.price * 100 ≤ 0.3

/-- Merging one swing observation into an existing level. -/
def mergeSwingInto (daysAgo : String → Option ℤ) (e : PriceLevel) (s : SwingPoint) :
    PriceLevel :=
  let tfs := if s.timeframe ∈ e.timeframes then e.timeframes else e.timeframes ++ [s.timeframe]
  let vis := if s.timeframe ∈ e.timeframes then e.visible_in_timeframes else tfs.length
  let src := if "swing" ∈ e.source then e.source else e.source ++ ["swing"]
  let upd :=
    match daysAgo (dateKey s.date) with
    | some d => if d < e.last_touch_days then (d, some (dateKey s.date))
                else (e.last_touch_days, e.last_touch_date)
    | none => (e.last_touch_days, e.last_touch_date)
  { e with touch_count := e.touch_count + 1, timeframes := tfs,
           visible_in_timeframes := vis, source := src,
           last_touch_days := upd.1, last_touch_date := upd.2 }

/-- A fresh level created from an unmerged swing. -/
def newSwingLevel (daysAgo : String → Option ℤ) (s : SwingPoint) : PriceLevel :=
  let t := if s.type = "low" then "support" else "resistance"
  let upd :=
    match daysAgo (dateKey s.date) with
    | some d => (d, some (dateKey s.date))
    | none => ((999 : ℤ), (none : Option String))
  { price := round2 s.price, type := t, source := ["swing"], timeframes := [s.timeframe],
    touch_count := 1, visible_in_timeframes := 1,
    last_touch_days := upd.1, last_touch_date := upd.2 }

/-- One step of `_swings_to_levels`: merge into the first close level, else
append at the end. -/
def swingMergeOne (daysAgo : String → Option ℤ) :
    List PriceLevel → SwingPoint → List PriceLevel
  | [], s => [newSwingLevel daysAgo s]
  | e :: rest, s =>
    if swingClose e s then mergeSwingInto daysAgo e s :: rest
    else e :: swingMergeOne daysAgo rest s

/-- `_swings_to_levels`. -/
def swingsToLevels (daysAgo : String → Option ℤ) (swings : List SwingPoint) :
    List PriceLevel :=
  swings.foldl (swingMergeOne daysAgo) []

/-- `_volume_zones_to_levels` (each zone dict contributes only its price). -/
def volumeZonesToLevels (volZones : List ℚ) (currentPrice : ℚ) : List PriceLevel :=
  volZones.map (fun p =>
    { price := round2 p,
      type := if p < currentPrice then "support" else "resistance",
      source := ["volume_profile"],
      is_high_volume_zone := true,
      touch_count := 0 })

/-- `ALL_LEVELS` round-number table of `psychological.py`. -/
def ALL_LEVELS : List ℚ :=
  [10000, 15000, 20000, 25000, 30000, 35000, 40000, 45000, 50000, 55000, 60000,
   65000, 70000, 75000, 80000, 85000, 90000, 95000, 100000, 110000, 120000,
   125000, 150000, 175000, 200000, 250000, 300000, 500000]

/-- `get_nearby_psychological_levels`. -/
def get_nearby_psychological_levels (currentPrice : ℚ) (rangePct : ℚ := 30) :
    List PriceLevel :=
  if currentPrice ≤ 0 then []
  else
    let lower := currentPrice * (1 - rangePct / 100)
    let upper := currentPrice * (1 + rangePct / 100)
    (ALL_LEVELS.filter (fun l => lower ≤ l ∧ l ≤ upper)).map (fun l =>
      { price := l,
        type := if l < currentPrice then "support" else "resistance",
        source := ["psychological"],
        is_psychological := true,
        touch_count := 0 })

/-- `x not in acc: acc.append(x)` folded over a list. -/
def appendNew (acc : List String) (l : List String) : List String :=
  l.foldl (fun a x => if x ∈ a then a else a ++ [x]) acc

/-- The attribute combination of `_merge_levels` when a new level falls within
tolerance of an existing one. -/
def mergeInto (e n : PriceLevel) : PriceLevel :=
  let src := appendNew e.source n.source
  let tfv := n.timeframes.foldl
    (fun (a : List String × ℕ) t => if t ∈ a.1 then a else (a.1 ++ [t], a.1.length + 1))
    (e.timeframes, e.visible_in_timeframes)
  let touch :=
    if n.last_touch_days < e.last_touch_days then (n.last_touch_days, n.last_touch_date)
    else (e.last_touch_days, e.last_touch_date)
  { e with source := src, timeframes := tfv.1, visible_in_timeframes := tfv.2,
           is_high_volume_zone := e.is_high_volume_zone || n.is_high_volume_zone,
           is_psychological := e.is_psychological || n.is_psychological,
           last_touch_days := touch.1, last_touch_date := touch.2,
           touch_count := e.touch_count + n.touch_count }

/-- The proximity test of `_merge_levels` (`inf` when the existing price is
not positive, which never merges). -/
def levelClose (e n : PriceLevel) (tol : ℚ) : Bool :=
  if e.price > 0 then |n.price - e.price| / e.price * 100 ≤ tol else false

/-- One step of `_merge_levels`: merge into the first close level, else append. -/
def mergeOne (tol : ℚ) : List PriceLevel → PriceLevel → List PriceLevel
  | [], n => [n]
  | e :: rest, n =>
    if levelClose e n tol then mergeInto e n :: rest
    else e :: mergeOne tol rest n

/-- `_merge_levels`. -/
def merge_levels (base new : List PriceLevel) (tol : ℚ := 0.3) : List PriceLevel :=
  new.foldl (mergeOne tol) base

/-- The level-builder pipeline of `scan_levels` steps 2–4: swing levels, then
volume zones, then psychological levels, both merged at 0.3% tolerance. -/
def buildLevels (daysAgo : String → Option ℤ) (swings : List SwingPoint)
    (volZones : List ℚ) (currentPrice : ℚ) : List PriceLevel :=
  merge_levels
    (merge_levels (swingsToLevels daysAgo swings)
      (volumeZonesToLevels volZones currentPrice) 0.3)
    (get_nearby_psychological_levels currentPrice) 0.3

theorem mem_appendNew (x : String) (l : List String) :
    ∀ acc, (x ∈ appendNew acc l ↔ x ∈ acc ∨ x ∈ l) := by
  induction l with
  | nil => intro acc; simp [appendNew]
  | cons a t ih =>
    intro acc
    have step : appendNew acc (a :: t) = appendNew (if a ∈ acc then acc else acc ++ [a]) t :=
      rfl
    rw [step, ih]
    by_cases h : a ∈ acc
    · rw [if_pos h]
      simp only [List.mem_cons]
      constructor
      · rintro (hx | hx)
        · exact Or.inl hx
        · exact Or.inr (Or.inr hx)
      · rintro (hx | rfl | hx)
        · exact Or.inl hx
        · exact Or.inl h
        · exact Or.inr hx
    · rw [if_neg h]
      simp only [List.mem_append, List.mem_singleton, List.mem_cons]
      tauto

/-- The builder invariant: a level has been touched iff it carries a swing
source. -/
def SwingTouch (lv : PriceLevel) : Prop := "swing" ∈ lv.source ↔ 1 ≤ lv.touch_count

/-- Volume-zone and psychological levels enter the merge untouched and without
a swing source. -/
def Untouched (lv : PriceLevel) : Prop := lv.touch_count = 0 ∧ "swing" ∉ lv.source

theorem swingTouch_newSwingLevel (daysAgo : String → Option ℤ) (s : SwingPoint) :
    SwingTouch (newSwingLevel daysAgo s) := by
  unfold SwingTouch newSwingLevel
  simp

theorem swingTouch_mergeSwingInto (daysAgo : String → Option ℤ) (e : PriceLevel)
    (s : SwingPoint) : SwingTouch (mergeSwingInto daysAgo e s) := by
  unfold SwingTouch mergeSwingInto
  dsimp only
  constructor
  · intro _; omega
  · intro _
    split
    · assumption
    · simp

theorem swingTouch_swingMergeOne (daysAgo : String → Option ℤ) (s : SwingPoint) :
    ∀ levels, (∀ lv ∈ levels, SwingTouch lv) →
      ∀ lv ∈ swingMergeOne daysAgo levels s, SwingTouch lv := by
  intro levels
  induction levels with
  | nil =>
    intro _ lv hlv
    rw [swingMergeOne] at hlv
    rcases List.mem_singleton.mp hlv with rfl
    exact swingTouch_newSwingLevel daysAgo s
  | cons e rest ih =>
    intro hall lv hlv
    rw [swingMergeOne] at hlv
    split at hlv
    · rcases List.mem_cons.mp hlv with rfl | hmem
      · exact swingTouch_mergeSwingInto daysAgo e s
      · exact hall _ (List.mem_cons_of_mem e hmem)
    · rcases List.mem_cons.mp hlv with rfl | hmem
      · exact hall _ (List.mem_cons_self _ _)
      · exact ih (fun x hx => hall x (List.mem_cons_of_mem e hx)) lv hmem

theorem swingTouch_swingsToLevels (daysAgo : String → Option ℤ) (swings : List SwingPoint) :
    ∀ lv ∈ swingsToLevels daysAgo swings, SwingTouch lv := by
  unfold swingsToLevels
  suffices h : ∀ (sw : List SwingPoint) (acc : List PriceLevel),
      (∀ lv ∈ acc, SwingTouch lv) → ∀ lv ∈ sw.foldl (swingMergeOne daysAgo) acc, SwingTouch lv by
    exact h swings [] (by intro lv hlv; simp at hlv)
  intro sw
  induction sw with
  | nil => intro acc hacc lv hlv; exact hacc lv hlv
  | cons s rest ih =>
    intro acc hacc lv hlv
    rw [List.foldl_cons] at hlv
    exact ih _ (swingTouch_swingMergeOne daysAgo s acc hacc) lv hlv

theorem swingTouch_mergeInto {e n : PriceLevel} (he : SwingTouch e) (hn : Untouched n) :
    SwingTouch (mergeInto e n) := by
  unfold SwingTouch mergeInto
  dsimp only
  rw [mem_appendNew]
  unfold SwingTouch at he
  rcases hn with ⟨hn0, hnsw⟩
  rw [hn0]
  constructor
  · rintro (hx | hx)
    · have h1 := he.mp hx; omega
    · exact absurd hx hnsw
  · intro ht
    exact Or.inl (he.mpr (by omega))

theorem swingTouch_of_untouched {n : PriceLevel} (hn : Untouched n) : SwingTouch n := by
  rcases hn with ⟨h0, hsw⟩
  unfold SwingTouch
  rw [h0]
  constructor
  · intro hx; exact absurd hx hsw
  · intro ht; omega

theorem swingTouch_mergeOne (tol : ℚ) (n : PriceLevel) (hn : Untouched n) :
    ∀ base, (∀ lv ∈ base, SwingTouch lv) →
      ∀ lv ∈ mergeOne tol base n, SwingTouch lv := by
  intro base
  induction base with
  | nil =>
    intro _ lv hlv
    rw [mergeOne] at hlv
    rcases List.mem_singleton.mp hlv with rfl
    exact swingTouch_of_untouched hn
  | cons e rest ih =>
    intro hall lv hlv
    rw [mergeOne] at hlv
    split at hlv
    · rcases List.mem_cons.mp hlv with rfl | hmem
      · exact swingTouch_mergeInto (hall _ (List.mem_cons_self _ _)) hn
      · exact hall _ (List.mem_cons_of_mem e hmem)
    · rcases List.mem_cons.mp hlv with rfl | hmem
      · exact hall _ (List.mem_cons_self _ _)
      · exact ih (fun x hx => hall x (List.mem_cons_of_mem e hx)) lv hmem

theorem swingTouch_merge_levels (tol : ℚ) :
    ∀ (new base : List PriceLevel), (∀ lv ∈ base, SwingTouch lv) →
      (∀ n ∈ new, Untouched n) →
      ∀ lv ∈ merge_levels base new tol, SwingTouch lv := by
  intro new
  induction new with
  | nil => intro base hbase _ lv hlv; exact hbase lv hlv
  | cons n rest ih =>
    intro base hbase hnew lv hlv
    unfold merge_levels at hlv ih
    rw [List.foldl_cons] at hlv
    exact ih (mergeOne tol base n)
      (swingTouch_mergeOne tol n (hnew n (List.mem_cons_self _ _)) base hbase)
      (fun x hx => hnew x (List.mem_cons_of_mem n hx)) lv hlv

theorem untouched_volumeZones (volZones : List ℚ) (cp : ℚ) :
    ∀ lv ∈ volumeZonesToLevels volZones cp, Untouched lv := by
  intro lv hlv
  rcases List.mem_map.mp hlv with ⟨p, _, rfl⟩
  unfold Untouched
  refine ⟨rfl, ?_⟩
  show "swing" ∉ ["volume_profile"]
  decide

theorem untouched_psychological (cp : ℚ) :
    ∀ lv ∈ get_nearby_psychological_levels cp, Untouched lv := by
  intro lv hlv
  unfold get_nearby_psychological_levels at hlv
  split at hlv
  · simp at hlv
  · rcases List.mem_map.mp hlv with ⟨p, _, rfl⟩
    unfold Untouched
    refine ⟨rfl, ?_⟩
    show "swing" ∉ ["psychological"]
    decide

/-- C6 (amended): in the merged level set, a level has touch_count ≥ 1 exactly
when it carries the "swing" source: swing-derived levels are created with one
touch and only gain touches, while volume-zone and psychological levels enter
and remain with touch_count = 0 (merging adds their zero touch counts). This
holds for every date oracle and every input. -/
theorem C6_amended_touch_count (daysAgo : String → Option ℤ) (swings : List SwingPoint)
    (volZones : List ℚ) (currentPrice : ℚ) :
    ∀ lv ∈ buildLevels daysAgo swings volZones currentPrice,
      ("swing" ∈ lv.source ↔ 1 ≤ lv.touch_count) := by
  intro lv hlv
  unfold buildLevels at hlv
  exact swingTouch_merge_levels 0.3 _ _
    (swingTouch_merge_levels 0.3 _ _
      (swingTouch_swingsToLevels daysAgo swings)
      (untouched_volumeZones volZones currentPrice))
    (untouched_psychological currentPrice) lv hlv

theorem ratAbs_ite (a : ℚ) : |a| = if 0 ≤ a then a else -a := by
  rcases le_or_lt 0 a with h | h
  · rw [if_pos h, abs_of_nonneg h]
  · rw [if_neg (not_le.mpr h), abs_of_neg h]

/-- C6 counterexample: with no swings, one volume zone at 50000 and current
price 50000, the builder returns seven levels (the volume-zone level, into
which the 50000 psychological level merges, plus six other psychological
levels) all with touch_count = 0 — so not every merged level has
touch_count ≥ 1. -/
theorem C6_counterexample :
    ((buildLevels (fun _ => none) [] [50000] 50000).map (fun lv => lv.touch_count))
      = [0, 0, 0, 0, 0, 0, 0]
    ∧ ((buildLevels (fun _ => none) [] [50000] 50000).all
        (fun lv => 1 ≤ lv.touch_count)) = false := by
  have hr : round2 (50000 : ℚ) = 50000 := by
    rw [round2, roundHalfEven_eval (z := 5000000) (by norm_num) (by norm_num)]
    norm_num
  constructor
  · norm_num [buildLevels, merge_levels, swingsToLevels, volumeZonesToLevels,
      get_nearby_psychological_levels, ALL_LEVELS, mergeOne, mergeInto, levelClose,
      appendNew, List.filter, ratAbs_ite, hr]
  · norm_num [buildLevels, merge_levels, swingsToLevels, volumeZonesToLevels,
      get_nearby_psychological_levels, ALL_LEVELS, mergeOne, mergeInto, levelClose,
      appendNew, List.filter, ratAbs_ite, hr]

/-- A single swing used to witness the amended touch-count invariant. -/
def c6Swing : SwingPoint := ⟨50000, "low", "2024-06-01", "1D", 0⟩

/-- C6 witness: the amended invariant applied to the level produced from one
concrete swing. -/
theorem C6_amended_touch_count_witness :
    "swing" ∈ (newSwingLevel (fun _ => none) c6Swing).source
      ↔ 1 ≤ (newSwingLevel (fun _ => none) c6Swing).touch_count :=
  C6_amended_touch_count (fun _ => none) [c6Swing] [] 1
    (newSwingLevel (fun _ => none) c6Swing)
    (by norm_num [buildLevels, merge_levels, swingsToLevels, swingMergeOne,
      volumeZonesToLevels, get_nearby_psychological_levels, ALL_LEVELS, List.filter])

/-! ## Enhanced TP/SL calculator (`trading/enhanced_tpsl.py`) -/

/-- `ATR_BUFFER.get(timeframe, 1.5)`. -/
def ATR_BUFFER (tf : String) : ℚ :=
  if tf = "1H" then 1 else if tf = "4H" then 1.5
  else if tf = "1D" then 2 else if tf = "1W" then 2.5 else 1.5

/-- `MAX_SL_PERCENT.get(timeframe, 4.0)`. -/
def MAX_SL_PERCENT (tf : String) : ℚ :=
  if tf = "1H" then 2 else if tf = "4H" then 4
  else if tf = "1D" then 7 else if tf = "1W" then 12 else 4

/-- `MIN_RR_TP1.get(timeframe, 1.5)`. -/
def MIN_RR_TP1 (tf : String) : ℚ :=
  if tf = "1H" then 1.2 else if tf = "4H" then 1.5
  else if tf = "1D" then 1.5 else if tf = "1W" then 2 else 1.5

/-- `MIN_RR_TP2.get(timeframe, 2.5)`. -/
def MIN_RR_TP2 (tf : String) : ℚ :=
  if tf = "1H" then 2 else if tf = "4H" then 2.5
  else if tf = "1D" then 3 else if tf = "1W" then 4 else 2.5

/-- Bollinger band dict (`bb.get("upper"/"mid"/"lower")`). -/
structure BBDict where
  upper : Option ℚ := none
  mid : Option ℚ := none
  lower : Option ℚ := none
deriving DecidableEq, Repr

/-- `_find_fib_retracement`. -/
def findFibRetracement (fibs : FibDict) (ratio : ℚ) : Option ℚ :=
  (fibs.retracements.find? (fun r => r.ratio == ratio)).map (fun r => r.price)

/-- Python's `max(xs, key=k)`: the first element with maximal key. -/
def firstMaxBy {α : Type} (key : α → ℚ) : List α → Option α
  | [] => none
  | x :: xs => some (xs.foldl (fun a y => if key y > key a then y else a) x)

/-- Python's `min(xs, key=k)`: the first element with minimal key. -/
def firstMinBy {α : Type} (key : α → ℚ) : List α → Option α
  | [] => none
  | x :: xs => some (xs.foldl (fun a y => if key y < key a then y else a) x)

/-- `_atr_fallback_sl`. -/
def atrFallbackSL (entry : ℚ) (direction : String) (buffer : ℚ) : ℚ :=
  if direction = "LONG" then entry - buffer * 1.5 else entry + buffer * 1.5

/-- Stop-loss candidates for LONG, in append order. -/
def slCandidatesLong (entry buffer : ℚ) (bb : BBDict) (levels : List PriceLevel)
    (fibs : Option FibDict) (swings : List SwingPoint) : List (String × ℚ) :=
  (match firstMaxBy (fun lv => lv.price)
      (levels.filter (fun lv => lv.type == "support" && lv.price < entry && lv.strength ≥ 10)) with
   | some best => [("gran_soporte", best.price - buffer)]
   | none => [])
  ++ (match fibs with
      | some f =>
        match findFibRetracement f 0.786 with
        | some p => if p ≠ 0 ∧ p < entry then [("fib_0786", p - buffer)] else []
        | none => []
      | none => [])
  ++ (match firstMaxBy (fun s => s.price)
        (swings.filter (fun s => s.type == "low" && s.price < entry)) with
      | some nearest => [("swing_low", nearest.price - buffer)]
      | none => [])
  ++ (match bb.lower with
      | some v => if v ≠ 0 ∧ v < entry then [("bb_lower", v - buffer * 0.5)] else []
      | none => [])
  ++ [("atr_fallback", entry - buffer * 1.5)]

/-- Stop-loss candidates for SHORT, in append order. -/
def slCandidatesShort (entry buffer : ℚ) (bb : BBDict) (levels : List PriceLevel)
    (fibs : Option FibDict) (swings : List SwingPoint) : List (String × ℚ) :=
  (match firstMinBy (fun lv => lv.price)
      (levels.filter (fun lv => lv.type == "resistance" && lv.price > entry && lv.strength ≥ 10)) with
   | some best => [("gran_resistencia", best.price + buffer)]
   | none => [])
  ++ (match fibs with
      | some f =>
        match findFibRetracement f 0.786 with
        | some p => if p ≠ 0 ∧ p > entry then [("fib_0786", p + buffer)] else []
        | none => []
      | none => [])
  ++ (match firstMinBy (fun s => s.price)
        (swings.filter (fun s => s.type == "high" && s.price > entry)) with
      | some nearest => [("swing_high", nearest.price + buffer)]
      | none => [])
  ++ (match bb.upper with
      | some v => if v ≠ 0 ∧ v > entry then [("bb_upper", v + buffer * 0.5)] else []
      | none => [])
  ++ [("atr_fallback", entry + buffer * 1.5)]

/-- `_calculate_sl`, returning the chosen method tag with the price. -/
def calcSL (entry : ℚ) (direction timeframe : String) (buffer : ℚ) (bb : BBDict)
    (levels : List PriceLevel) (fibs : Option FibDict) (swings : List SwingPoint) :
    String × ℚ :=
  let maxPct := MAX_SL_PERCENT timeframe
  if direction = "LONG" then
    let cands := slCandidatesLong entry buffer bb levels fibs swings
    let maxPrice := entry * (1 - maxPct / 100)
    match firstMaxBy (fun c => c.2) (cands.filter (fun c => c.2 ≥ maxPrice)) with
    | some c => c
    | none => ("atr_fallback", atrFallbackSL entry direction buffer)
  else
    let cands := slCandidatesShort entry buffer bb levels fibs swings
    let maxPrice := entry * (1 + maxPct / 100)
    match firstMinBy (fun c => c.2) (cands.filter (fun c => c.2 ≤ maxPrice)) with
    | some c => c
    | none => ("atr_fallback", atrFallbackSL entry direction buffer)

/-- Take-profit-1 candidates for LONG, in append order. -/
def tp1CandidatesLong (entry risk : ℚ) (timeframe : String) (bb : BBDict)
    (levels : List PriceLevel) (fibs : Option FibDict) (swings : List SwingPoint) :
    List (String × ℚ) :=
  (match fibs with
   | some f => f.extensions.filterMap (fun ext =>
      if ext.price > entry
          ∧ levels.any (fun lv =>
              lv.type == "resistance" && lv.strength ≥ 8 && pyNear ext.price lv.price 1)
      then some ("fib_ext_at_level", ext.price) else none)
   | none => [])
  ++ (match firstMinBy (fun lv => lv.price)
        (levels.filter (fun lv => lv.type == "resistance" && lv.price > entry && lv.strength ≥ 8)) with
      | some nearest => [("strong_resistance", nearest.price)]
      | none => [])
  ++ (match firstMinBy (fun s => s.price)
        (swings.filter (fun s => s.type == "high" && s.price > entry)) with
      | some nearest => [("swing_high", nearest.price)]
      | none => [])
  ++ (match bb.mid with
      | some v => if v ≠ 0 ∧ v > entry then [("bb_mid", v)] else []
      | none => [])
  ++ [("atr_fallback", entry + risk * MIN_RR_TP1 timeframe)]

/-- Take-profit-1 candidates for SHORT, in append order. -/
def tp1CandidatesShort (entry risk : ℚ) (timeframe : String) (bb : BBDict)
    (levels : List PriceLevel) (fibs : Option FibDict) (swings : List SwingPoint) :
    List (String × ℚ) :=
  (match fibs with
   | some f => f.extensions.filterMap (fun ext =>
      if ext.price < entry
          ∧ levels.any (fun lv =>
              lv.type == "support" && lv.strength ≥ 8 && pyNear ext.price lv.price 1)
      then some ("fib_ext_at_level", ext.price) else none)
   | none => [])
  ++ (match firstMaxBy (fun lv => lv.price)
        (levels.filter (fun lv => lv.type == "support" && lv.price < entry && lv.strength ≥ 8)) with
      | some nearest => [("strong_support", nearest.price)]
      | none => [])
  ++ (match firstMaxBy (fun s => s.price)
        (swings.filter (fun s => s.type == "low" && s.price < entry)) with
      | some nearest => [("swing_low", nearest.price)]
      | none => [])
  ++ (match bb.mid with
      | some v => if v ≠ 0 ∧ v < entry then [("bb_mid", v)] else []
      | none => [])
  ++ [("atr_fallback", entry - risk * MIN_RR_TP1 timeframe)]

/-- Take-profit-2 candidates for LONG, in append order. -/
def tp2CandidatesLong (entry risk tp1 : ℚ) (timeframe : String) (bb : BBDict)
    (levels : List PriceLevel) (fibs : Option FibDict) : List (String × ℚ) :=
  (match fibs with
   | some f => f.extensions.filterMap (fun ext =>
      if ext.ratio == 1.618 ∧ ext.price > tp1
          ∧ levels.any (fun lv =>
              lv.type == "resistance" && lv.strength ≥ 8 && pyNear ext.price lv.price 1.5)
      then some ("fib_1618_at_level", ext.price) else none)
   | none => [])
  ++ (match firstMinBy (fun lv => lv.price)
        (levels.filter (fun lv => lv.type == "resistance" && lv.price > tp1 && lv.strength ≥ 8)) with
      | some nearest => [("next_resistance", nearest.price)]
      | none => [])
  ++ (match fibs with
      | some f =>
        match f.extensions.find? (fun e => e.ratio == 1.618 && e.price > tp1) with
        | some e => [("fib_1618", e.price)]
        | none => []
      | none => [])
  ++ (match bb.upper with
      | some v => if v ≠ 0 ∧ v > tp1 then [("bb_upper", v)] else []
      | none => [])
  ++ [("atr_fallback", entry + risk * MIN_RR_TP2 timeframe)]

/-- Take-profit-2 candidates for SHORT, in append order. -/
def tp2CandidatesShort (entry risk tp1 : ℚ) (timeframe : String) (bb : BBDict)
    (levels : List PriceLevel) (fibs : Option FibDict) : List (String × ℚ) :=
  (match fibs with
   | some f => f.extensions.filterMap (fun ext =>
      if ext.ratio == 1.618 ∧ ext.price < tp1
          ∧ levels.any (fun lv =>
              lv.type == "support" && lv.strength ≥ 8 && pyNear ext.price lv.price 1.5)
      then some ("fib_1618_at_level", ext.price) else none)
   | none => [])
  ++ (match firstMaxBy (fun lv => lv.price)
        (levels.filter (fun lv => lv.type == "support" && lv.price < tp1 && lv.strength ≥ 8)) with
      | some nearest => [("next_support", nearest.price)]
      | none => [])
  ++ (match fibs with
      | some f =>
        match f.extensions.find? (fun e => e.ratio == 1.618 && e.price < tp1) with
        | some e => [("fib_1618", e.price)]
        | none => []
      | none => [])
  ++ (match bb.lower with
      | some v => if v ≠ 0 ∧ v < tp1 then [("bb_lower", v)] else []
      | none => [])
  ++ [("atr_fallback", entry - risk * MIN_RR_TP2 timeframe)]

/-- `_pick_tp`: the structural candidate closest to entry on the profit side;
falls back to the last candidate, or to entry itself when no candidates exist
(unreachable at the call sites, which always append an ATR fallback). -/
def pickTP (candidates : List (String × ℚ)) (entry : ℚ) (direction : String) :
    String × ℚ :=
  if candidates = [] then ("", entry)
  else if direction = "LONG" then
    match firstMinBy (fun c => c.2) (candidates.filter (fun c => c.2 > entry)) with
    | some c => c
    | none => (candidates.getLast?).getD ("", entry)
  else
    match firstMaxBy (fun c => c.2) (candidates.filter (fun c => c.2 < entry)) with
    | some c => c
    | none => (candidates.getLast?).getD ("", entry)

/-- `_calculate_tp1`. -/
def calcTP1 (entry : ℚ) (direction timeframe : String) (risk : ℚ) (bb : BBDict)
    (levels : List PriceLevel) (fibs : Option FibDict) (swings : List SwingPoint) :
    String × ℚ :=
  if direction = "LONG" then
    pickTP (tp1CandidatesLong entry risk timeframe bb levels fibs swings) entry direction
  else
    pickTP (tp1CandidatesShort entry risk timeframe bb levels fibs swings) entry direction

/-- `_calculate_tp2`. -/
def calcTP2 (entry : ℚ) (direction timeframe : String) (risk : ℚ) (bb : BBDict)
    (levels : List PriceLevel) (fibs : Option FibDict) (tp1 : ℚ) : String × ℚ :=
  if direction = "LONG" then
    pickTP (tp2CandidatesLong entry risk tp1 timeframe bb levels fibs) entry direction
  else
    pickTP (tp2CandidatesShort entry risk tp1 timeframe bb levels fibs) entry direction

/-- The valid-result fields of `EnhancedTPSL.calculate`. -/
structure TPSLFields where
  sl : ℚ
  tp1 : ℚ
  tp2 : ℚ
  sl_pct : ℚ
  tp1_pct : ℚ
  tp2_pct : ℚ
  rr_tp1 : ℚ
  rr_tp2 : ℚ
  sl_method : String
  tp1_method : String
  tp2_method : String
deriving DecidableEq, Repr

/-- Result of `EnhancedTPSL.calculate` (invalid reasons abbreviate the source's
interpolated strings). -/
inductive TPSLResult where
  | invalid (reason : String)
  | valid (f : TPSLFields)
deriving DecidableEq, Repr

/-- The stop-loss phase of `calculate`: `_calculate_sl` followed by the
tighter-fallback retry when the distance exceeds the cap. -/
def slAfterRetry (entry : ℚ) (direction timeframe : String) (buffer : ℚ) (bb : BBDict)
    (levels : List PriceLevel) (fibs : Option FibDict) (swings : List SwingPoint) :
    String × ℚ :=
  let slm0 := calcSL entry direction timeframe buffer bb levels fibs swings
  if |entry - slm0.2| / entry * 100 > MAX_SL_PERCENT timeframe then
    ("atr_fallback", atrFallbackSL entry direction buffer)
  else slm0

/-- The TP1 phase of `calculate`: `_calculate_tp1` followed by the minimum-R:R
recompute. -/
def tp1Final (entry : ℚ) (direction timeframe : String) (risk : ℚ) (bb : BBDict)
    (levels : List PriceLevel) (fibs : Option FibDict) (swings : List SwingPoint) :
    String × ℚ :=
  let t1 := calcTP1 entry direction timeframe risk bb levels fibs swings
  if |t1.2 - entry| / risk < MIN_RR_TP1 timeframe then
    ("min_rr_fallback",
     if direction = "LONG" then entry + risk * MIN_RR_TP1 timeframe
     else entry - risk * MIN_RR_TP1 timeframe)
  else t1

/-- The TP2 phase of `calculate`: `_calculate_tp2` followed by the minimum-R:R
recompute. -/
def tp2Final (entry : ℚ) (direction timeframe : String) (risk : ℚ) (bb : BBDict)
    (levels : List PriceLevel) (fibs : Option FibDict) (tp1v : ℚ) : String × ℚ :=
  let t2 := calcTP2 entry direction timeframe risk bb levels fibs tp1v
  if |t2.2 - entry| / risk < MIN_RR_TP2 timeframe then
    ("min_rr_fallback",
     if direction = "LONG" then entry + risk * MIN_RR_TP2 timeframe
     else entry - risk * MIN_RR_TP2 timeframe)
  else t2

/-- `EnhancedTPSL.calculate`. -/
def tpslCalculate (entry : ℚ) (direction timeframe : String) (atr : ℚ) (bb : BBDict)
    (levels : List PriceLevel) (fibs : Option FibDict) (swings : List SwingPoint) :
    TPSLResult :=
  if atr ≤ 0 then .invalid "ATR is zero or negative"
  else
    let buffer := atr * ATR_BUFFER timeframe
    let slm := slAfterRetry entry direction timeframe buffer bb levels fibs swings
    if |entry - slm.2| / entry * 100 > MAX_SL_PERCENT timeframe then
      .invalid "SL exceeds max percent"
    else
      let risk := |entry - slm.2|
      if risk = 0 then .invalid "Risk is zero (SL = entry)"
      else
        let t1f := tp1Final entry direction timeframe risk bb levels fibs swings
        let t2f := tp2Final entry direction timeframe risk bb levels fibs t1f.2
        .valid { sl := round2 slm.2, tp1 := round2 t1f.2, tp2 := round2 t2f.2,
                 sl_pct := round2 (|entry - slm.2| / entry * 100),
                 tp1_pct := round2 (|t1f.2 - entry| / entry * 100),
                 tp2_pct := round2 (|t2f.2 - entry| / entry * 100),
                 rr_tp1 := round2 (|t1f.2 - entry| / risk),
                 rr_tp2 := round2 (|t2f.2 - entry| / risk),
                 sl_method := slm.1, tp1_method := t1f.1, tp2_method := t2f.1 }

theorem round2_eq_self_of_int_mul {x : ℚ} {k : ℤ} (h : x * 100 = (k : ℚ)) :
    round2 x = x := by
  have hx : x = (k : ℚ) / 100 := by field_simp; linarith [h]
  rw [round2, h, roundHalfEven_eval (z := k) (le_refl _) (by norm_num), hx]
  norm_num

/-- The TP/SL run of the specification scenario: entry 100000, LONG, 1D,
ATR 1000, no structural candidates at all. -/
def c1Run : TPSLResult :=
  tpslCalculate 100000 "LONG" "1D" 1000 {} [] none []

theorem c1Run_eval :
    c1Run = .valid { sl := 97000, tp1 := 104500, tp2 := 109000,
                     sl_pct := 3, tp1_pct := 4.5, tp2_pct := 9,
                     rr_tp1 := 1.5, rr_tp2 := 3,
                     sl_method := "atr_fallback", tp1_method := "atr_fallback",
                     tp2_method := "atr_fallback" } := by
  have r1 : round2 (97000 : ℚ) = 97000 := round2_eq_self_of_int_mul (k := 9700000) (by norm_num)
  have r2 : round2 (104500 : ℚ) = 104500 :=
    round2_eq_self_of_int_mul (k := 10450000) (by norm_num)
  have r3 : round2 (109000 : ℚ) = 109000 :=
    round2_eq_self_of_int_mul (k := 10900000) (by norm_num)
  have r4 : round2 (3 : ℚ) = 3 := round2_eq_self_of_int_mul (k := 300) (by norm_num)
  have r5 : round2 (9/2 : ℚ) = 9/2 := round2_eq_self_of_int_mul (k := 450) (by norm_num)
  have r6 : round2 (9 : ℚ) = 9 := round2_eq_self_of_int_mul (k := 900) (by norm_num)
  have r7 : round2 (3/2 : ℚ) = 3/2 := round2_eq_self_of_int_mul (k := 150) (by norm_num)
  norm_num +decide [c1Run, tpslCalculate, slAfterRetry, tp1Final, tp2Final,
    calcSL, calcTP1, calcTP2, pickTP,
    slCandidatesLong, tp1CandidatesLong, tp2CandidatesLong, firstMaxBy, firstMinBy,
    ATR_BUFFER, MAX_SL_PERCENT, MIN_RR_TP1, MIN_RR_TP2, atrFallbackSL,
    List.filter, ratAbs_ite, r1, r2, r3, r4, r5, r6, r7]

/-- C1 counterexample: on entry=100000, LONG, 1D, ATR=1000 with no structural
candidates the calculator returns sl=97000 (sl_pct 3.0%), not sl=98500
(1.5%) as claimed: the ATR-only stop-loss fallback is entry − 1.5 × buffer
with buffer = 2000. -/
theorem C1_counterexample :
    c1Run = .valid { sl := 97000, tp1 := 104500, tp2 := 109000,
                     sl_pct := 3, tp1_pct := 4.5, tp2_pct := 9,
                     rr_tp1 := 1.5, rr_tp2 := 3,
                     sl_method := "atr_fallback", tp1_method := "atr_fallback",
                     tp2_method := "atr_fallback" }
    ∧ (97000 : ℚ) ≠ 98500 ∧ (104500 : ℚ) ≠ 102250 ∧ (109000 : ℚ) ≠ 104500 :=
  ⟨c1Run_eval, by norm_num, by norm_num, by norm_num⟩

/-- C1 (amended): for entry=100000, LONG, 1D, ATR=1000 and no structural
candidates, buffer = 2000 and the result is valid with sl = 97000
(sl_pct 3.0%, entry − 1.5 × buffer), tp1 = 104500 (risk 3000 × min R:R 1.5)
and tp2 = 109000 (risk × min R:R 3.0), all tagged atr_fallback. -/
theorem C1_amended_tpsl_scenario :
    (1000 : ℚ) * ATR_BUFFER "1D" = 2000
    ∧ c1Run = .valid { sl := 97000, tp1 := 104500, tp2 := 109000,
                       sl_pct := 3, tp1_pct := 4.5, tp2_pct := 9,
                       rr_tp1 := 1.5, rr_tp2 := 3,
                       sl_method := "atr_fallback", tp1_method := "atr_fallback",
                       tp2_method := "atr_fallback" } :=
  ⟨by norm_num +decide [ATR_BUFFER], c1Run_eval⟩

theorem foldl_max_mem {α : Type} (key : α → ℚ) :
    ∀ (xs : List α) (a : α), xs.foldl (fun a y => if key y > key a then y else a) a ∈ a :: xs := by
  intro xs
  induction xs with
  | nil => intro a; exact List.mem_singleton.mpr rfl
  | cons y ys ih =>
    intro a
    rw [List.foldl_cons]
    rcases List.mem_cons.mp (ih (if key y > key a then y else a)) with h | h
    · rw [h]
      split
      · exact List.mem_cons_of_mem a (List.mem_cons_self _ _)
      · exact List.mem_cons_self _ _
    · exact List.mem_cons_of_mem a (List.mem_cons_of_mem y h)

theorem foldl_max_ge {α : Type} (key : α → ℚ) :
    ∀ (xs : List α) (a : α) (x : α), x ∈ a :: xs →
      key x ≤ key (xs.foldl (fun a y => if key y > key a then y else a) a) := by
  intro xs
  induction xs with
  | nil =>
    intro a x hx
    rcases List.mem_singleton.mp hx with rfl
    exact le_refl _
  | cons y ys ih =>
    intro a x hx
    rw [List.foldl_cons]
    have step : key a ≤ key (if key y > key a then y else a) := by
      split
      · exact le_of_lt (by assumption)
      · exact le_refl _
    have stepy : key y ≤ key (if key y > key a then y else a) := by
      split
      · exact le_refl _
      · exact le_of_not_lt (by assumption)
    rcases List.mem_cons.mp hx with rfl | hx2
    · exact le_trans step (ih _ _ (List.mem_cons_self _ _))
    · rcases List.mem_cons.mp hx2 with rfl | hx3
      · exact le_trans stepy (ih _ _ (List.mem_cons_self _ _))
      · exact ih _ _ (List.mem_cons_of_mem _ hx3)

theorem foldl_min_mem {α : Type} (key : α → ℚ) :
    ∀ (xs : List α) (a : α), xs.foldl (fun a y => if key y < key a then y else a) a ∈ a :: xs := by
  intro xs
  induction xs with
  | nil => intro a; exact List.mem_singleton.mpr rfl
  | cons y ys ih =>
    intro a
    rw [List.foldl_cons]
    rcases List.mem_cons.mp (ih (if key y < key a then y else a)) with h | h
    · rw [h]
      split
      · exact List.mem_cons_of_mem a (List.mem_cons_self _ _)
      · exact List.mem_cons_self _ _
    · exact List.mem_cons_of_mem a (List.mem_cons_of_mem y h)

theorem foldl_min_le {α : Type} (key : α → ℚ) :
    ∀ (xs : List α) (a : α) (x : α), x ∈ a :: xs →
      key (xs.foldl (fun a y => if key y < key a then y else a) a) ≤ key x := by
  intro xs
  induction xs with
  | nil =>
    intro a x hx
    rcases List.mem_singleton.mp hx with rfl
    exact le_refl _
  | cons y ys ih =>
    intro a x hx
    rw [List.foldl_cons]
    have step : key (if key y < key a then y else a) ≤ key a := by
      split
      · exact le_of_lt (by assumption)
      · exact le_refl _
    have stepy : key (if key y < key a then y else a) ≤ key y := by
      split
      · exact le_refl _
      · exact le_of_not_lt (by assumption)
    rcases List.mem_cons.mp hx with rfl | hx2
    · exact le_trans (ih _ _ (List.mem_cons_self _ _)) step
    · rcases List.mem_cons.mp hx2 with rfl | hx3
      · exact le_trans (ih _ _ (List.mem_cons_self _ _)) stepy
      · exact ih _ _ (List.mem_cons_of_mem _ hx3)

theorem firstMaxBy_mem {α : Type} {key : α → ℚ} {l : List α} {c : α}
    (h : firstMaxBy key l = some c) : c ∈ l := by
  cases l with
  | nil => simp [firstMaxBy] at h
  | cons x xs =>
    rw [firstMaxBy, Option.some.injEq] at h
    rw [← h]
    exact foldl_max_mem key xs x

theorem firstMaxBy_ge {α : Type} {key : α → ℚ} {l : List α} {c : α}
    (h : firstMaxBy key l = some c) : ∀ x ∈ l, key x ≤ key c := by
  cases l with
  | nil => simp [firstMaxBy] at h
  | cons x xs =>
    rw [firstMaxBy, Option.some.injEq] at h
    intro z hz
    rw [← h]
    exact foldl_max_ge key xs x z hz

theorem firstMinBy_mem {α : Type} {key : α → ℚ} {l : List α} {c : α}
    (h : firstMinBy key l = some c) : c ∈ l := by
  cases l with
  | nil => simp [firstMinBy] at h
  | cons x xs =>
    rw [firstMinBy, Option.some.injEq] at h
    rw [← h]
    exact foldl_min_mem key xs x

theorem firstMinBy_le {α : Type} {key : α → ℚ} {l : List α} {c : α}
    (h : firstMinBy key l = some c) : ∀ x ∈ l, key c ≤ key x := by
  cases l with
  | nil => simp [firstMinBy] at h
  | cons x xs =>
    rw [firstMinBy, Option.some.injEq] at h
    intro z hz
    rw [← h]
    exact foldl_min_le key xs x z hz

theorem firstMinBy_isSome {α : Type} {key : α → ℚ} {l : List α} (h : l ≠ []) :
    ∃ c, firstMinBy key l = some c := by
  cases l with
  | nil => exact absurd rfl h
  | cons x xs => exact ⟨_, rfl⟩

theorem firstMaxBy_isSome {α : Type} {key : α → ℚ} {l : List α} (h : l ≠ []) :
    ∃ c, firstMaxBy key l = some c := by
  cases l with
  | nil => exact absurd rfl h
  | cons x xs => exact ⟨_, rfl⟩

theorem ATR_BUFFER_pos (tf : String) : 0 < ATR_BUFFER tf := by
  unfold ATR_BUFFER; split_ifs <;> norm_num

theorem MIN_RR_TP1_pos (tf : String) : 0 < MIN_RR_TP1 tf := by
  unfold MIN_RR_TP1; split_ifs <;> norm_num

theorem MIN_RR_TP2_pos (tf : String) : 0 < MIN_RR_TP2 tf := by
  unfold MIN_RR_TP2; split_ifs <;> norm_num

theorem MIN_RR_TP1_lt_TP2 (tf : String) : MIN_RR_TP1 tf < MIN_RR_TP2 tf := by
  unfold MIN_RR_TP1 MIN_RR_TP2; split_ifs <;> norm_num

theorem round2_le_MAX_SL {x : ℚ} (tf : String) (h : x ≤ MAX_SL_PERCENT tf) :
    round2 x ≤ MAX_SL_PERCENT tf := by
  unfold MAX_SL_PERCENT at h ⊢
  split_ifs at h ⊢
  · exact round2_le_of_le (k := 200) (by norm_num) h
  · exact round2_le_of_le (k := 400) (by norm_num) h
  · exact round2_le_of_le (k := 700) (by norm_num) h
  · exact round2_le_of_le (k := 1200) (by norm_num) h
  · exact round2_le_of_le (k := 400) (by norm_num) h

theorem round2_MIN_RR_TP1 (tf : String) : round2 (MIN_RR_TP1 tf) = MIN_RR_TP1 tf := by
  unfold MIN_RR_TP1
  split_ifs
  · exact round2_eq_self_of_int_mul (k := 120) (by norm_num)
  · exact round2_eq_self_of_int_mul (k := 150) (by norm_num)
  · exact round2_eq_self_of_int_mul (k := 150) (by norm_num)
  · exact round2_eq_self_of_int_mul (k := 200) (by norm_num)
  · exact round2_eq_self_of_int_mul (k := 150) (by norm_num)

theorem round2_MIN_RR_TP2 (tf : String) : round2 (MIN_RR_TP2 tf) = MIN_RR_TP2 tf := by
  unfold MIN_RR_TP2
  split_ifs
  · exact round2_eq_self_of_int_mul (k := 200) (by norm_num)
  · exact round2_eq_self_of_int_mul (k := 250) (by norm_num)
  · exact round2_eq_self_of_int_mul (k := 300) (by norm_num)
  · exact round2_eq_self_of_int_mul (k := 400) (by norm_num)
  · exact round2_eq_self_of_int_mul (k := 250) (by norm_num)

theorem slCandidatesLong_lt {entry buffer : ℚ} {bb : BBDict} {levels : List PriceLevel}
    {fibs : Option FibDict} {swings : List SwingPoint} (hbuf : 0 < buffer) :
    ∀ c ∈ slCandidatesLong entry buffer bb levels fibs swings, c.2 < entry := by
  intro c hc
  unfold slCandidatesLong at hc
  simp only [List.mem_append] at hc
  rcases hc with ((((h | h) | h) | h) | h)
  · revert h
    cases hfm : firstMaxBy (fun lv => lv.price)
        (levels.filter (fun lv => lv.type == "support" && lv.price < entry && lv.strength ≥ 10)) with
    | none => intro h; simp at h
    | some best =>
      intro h
      rcases List.mem_singleton.mp h with rfl
      have hmem := firstMaxBy_mem hfm
      have hpred := (List.mem_filter.mp hmem).2
      simp only [Bool.and_eq_true, decide_eq_true_eq] at hpred
      have : best.price < entry := hpred.1.2
      dsimp only
      linarith
  · revert h
    cases fibs with
    | none => intro h; simp at h
    | some f =>
      cases hfr : findFibRetracement f 0.786 with
      | none => intro h; simp [hfr] at h
      | some p =>
        intro h
        simp only [hfr] at h
        by_cases hcond : p ≠ 0 ∧ p < entry
        · rw [if_pos hcond] at h
          rcases List.mem_singleton.mp h with rfl
          dsimp only
          linarith [hcond.2]
        · rw [if_neg hcond] at h
          simp at h
  · revert h
    cases hfm : firstMaxBy (fun s => s.price)
        (swings.filter (fun s => s.type == "low" && s.price < entry)) with
    | none => intro h; simp at h
    | some nearest =>
      intro h
      rcases List.mem_singleton.mp h with rfl
      have hmem := firstMaxBy_mem hfm
      have hpred := (List.mem_filter.mp hmem).2
      simp only [Bool.and_eq_true, decide_eq_true_eq] at hpred
      dsimp only
      linarith [hpred.2]
  · revert h
    cases bb.lower with
    | none => intro h; simp at h
    | some v =>
      intro h
      dsimp only at h
      by_cases hcond : v ≠ 0 ∧ v < entry
      · rw [if_pos hcond] at h
        rcases List.mem_singleton.mp h with rfl
        dsimp only
        linarith [hcond.2]
      · rw [if_neg hcond] at h
        simp at h
  · rw [List.mem_singleton] at h
    rw [h]
    dsimp only
    linarith

theorem slCandidatesShort_gt {entry buffer : ℚ} {bb : BBDict} {levels : List PriceLevel}
    {fibs : Option FibDict} {swings : List SwingPoint} (hbuf : 0 < buffer) :
    ∀ c ∈ slCandidatesShort entry buffer bb levels fibs swings, entry < c.2 := by
  intro c hc
  unfold slCandidatesShort at hc
  simp only [List.mem_append] at hc
  rcases hc with ((((h | h) | h) | h) | h)
  · revert h
    cases hfm : firstMinBy (fun lv => lv.price)
        (levels.filter (fun lv => lv.type == "resistance" && lv.price > entry && lv.strength ≥ 10)) with
    | none => intro h; simp at h
    | some best =>
      intro h
      rcases List.mem_singleton.mp h with rfl
      have hmem := firstMinBy_mem hfm
      have hpred := (List.mem_filter.mp hmem).2
      simp only [Bool.and_eq_true, decide_eq_true_eq] at hpred
      have : entry < best.price := hpred.1.2
      dsimp only
      linarith
  · revert h
    cases fibs with
    | none => intro h; simp at h
    | some f =>
      cases hfr : findFibRetracement f 0.786 with
      | none => intro h; simp [hfr] at h
      | some p =>
        intro h
        simp only [hfr] at h
        by_cases hcond : p ≠ 0 ∧ p > entry
        · rw [if_pos hcond] at h
          rcases List.mem_singleton.mp h with rfl
          dsimp only
          linarith [hcond.2]
        · rw [if_neg hcond] at h
          simp at h
  · revert h
    cases hfm : firstMinBy (fun s => s.price)
        (swings.filter (fun s => s.type == "high" && s.price > entry)) with
    | none => intro h; simp at h
    | some nearest =>
      intro h
      rcases List.mem_singleton.mp h with rfl
      have hmem := firstMinBy_mem hfm
      have hpred := (List.mem_filter.mp hmem).2
      simp only [Bool.and_eq_true, decide_eq_true_eq] at hpred
      dsimp only
      linarith [hpred.2]
  · revert h
    cases bb.upper with
    | none => intro h; simp at h
    | some v =>
      intro h
      dsimp only at h
      by_cases hcond : v ≠ 0 ∧ v > entry
      · rw [if_pos hcond] at h
        rcases List.mem_singleton.mp h with rfl
        dsimp only
        linarith [hcond.2]
      · rw [if_neg hcond] at h
        simp at h
  · rw [List.mem_singleton] at h
    rw [h]
    dsimp only
    linarith

theorem slAfterRetry_long_lt {entry : ℚ} {tf : String} {buffer : ℚ} {bb : BBDict}
    {levels : List PriceLevel} {fibs : Option FibDict} {swings : List SwingPoint}
    (hbuf : 0 < buffer) :
    (slAfterRetry entry "LONG" tf buffer bb levels fibs swings).2 < entry := by
  unfold slAfterRetry
  dsimp only
  split
  · unfold atrFallbackSL
    rw [if_pos rfl]
    linarith
  · unfold calcSL
    rw [if_pos rfl]
    dsimp only
    split
    · next c heq =>
      have hmem := firstMaxBy_mem heq
      have hc := (List.mem_filter.mp hmem).1
      exact slCandidatesLong_lt hbuf c hc
    · unfold atrFallbackSL
      rw [if_pos rfl]
      dsimp only
      linarith

theorem slAfterRetry_short_gt {entry : ℚ} {direction tf : String} {buffer : ℚ}
    {bb : BBDict} {levels : List PriceLevel} {fibs : Option FibDict}
    {swings : List SwingPoint} (hbuf : 0 < buffer) (hd : ¬ direction = "LONG") :
    entry < (slAfterRetry entry direction tf buffer bb levels fibs swings).2 := by
  unfold slAfterRetry
  dsimp only
  split
  · unfold atrFallbackSL
    rw [if_neg hd]
    linarith
  · unfold calcSL
    rw [if_neg hd]
    dsimp only
    split
    · next c heq =>
      have hmem := firstMinBy_mem heq
      have hc := (List.mem_filter.mp hmem).1
      exact slCandidatesShort_gt hbuf c hc
    · unfold atrFallbackSL
      rw [if_neg hd]
      dsimp only
      linarith

theorem pickTP_long_bounds {cands : List (String × ℚ)} {entry fbv : ℚ} {fbn : String}
    (hmem : (fbn, fbv) ∈ cands) (hgt : entry < fbv) :
    entry < (pickTP cands entry "LONG").2 ∧ (pickTP cands entry "LONG").2 ≤ fbv := by
  have hne : cands ≠ [] := by intro h; rw [h] at hmem; simp at hmem
  unfold pickTP
  rw [if_neg hne, if_pos rfl]
  have hfbv : (fbn, fbv) ∈ cands.filter (fun c => c.2 > entry) :=
    List.mem_filter.mpr ⟨hmem, by simp [hgt]⟩
  have hvne : cands.filter (fun c => c.2 > entry) ≠ [] := by
    intro h; rw [h] at hfbv; simp at hfbv
  obtain ⟨c, hcm⟩ := @firstMinBy_isSome _ (fun c => c.2) _ hvne
  rw [hcm]
  have hcmem := firstMinBy_mem hcm
  have hcpred := (List.mem_filter.mp hcmem).2
  simp only [decide_eq_true_eq] at hcpred
  have hle := firstMinBy_le hcm _ hfbv
  exact ⟨hcpred, hle⟩

theorem pickTP_short_bounds {cands : List (String × ℚ)} {entry fbv : ℚ}
    {fbn direction : String} (hmem : (fbn, fbv) ∈ cands) (hlt : fbv < entry)
    (hd : ¬ direction = "LONG") :
    (pickTP cands entry direction).2 < entry ∧ fbv ≤ (pickTP cands entry direction).2 := by
  have hne : cands ≠ [] := by intro h; rw [h] at hmem; simp at hmem
  unfold pickTP
  rw [if_neg hne, if_neg hd]
  have hfbv : (fbn, fbv) ∈ cands.filter (fun c => c.2 < entry) :=
    List.mem_filter.mpr ⟨hmem, by simp [hlt]⟩
  have hvne : cands.filter (fun c => c.2 < entry) ≠ [] := by
    intro h; rw [h] at hfbv; simp at hfbv
  obtain ⟨c, hcm⟩ := @firstMaxBy_isSome _ (fun c => c.2) _ hvne
  rw [hcm]
  have hcmem := firstMaxBy_mem hcm
  have hcpred := (List.mem_filter.mp hcmem).2
  simp only [decide_eq_true_eq] at hcpred
  have hge := firstMaxBy_ge hcm _ hfbv
  exact ⟨hcpred, hge⟩

theorem short_ne_long : ("SHORT" = "LONG") = False := by simp +decide

theorem long_eq_long : ("LONG" = "LONG") = True := by simp

theorem tp1Final_long_eq {entry : ℚ} {tf : String} {risk : ℚ} {bb : BBDict}
    {levels : List PriceLevel} {fibs : Option FibDict} {swings : List SwingPoint}
    (hrisk : 0 < risk) :
    (tp1Final entry "LONG" tf risk bb levels fibs swings).2
      = entry + risk * MIN_RR_TP1 tf := by
  have hfb : ("atr_fallback", entry + risk * MIN_RR_TP1 tf)
      ∈ tp1CandidatesLong entry risk tf bb levels fibs swings := by
    unfold tp1CandidatesLong
    simp [List.mem_append]
  have hgt : entry < entry + risk * MIN_RR_TP1 tf := by
    nlinarith [MIN_RR_TP1_pos tf]
  obtain ⟨hgt2, hle2⟩ := pickTP_long_bounds hfb hgt
  unfold tp1Final calcTP1
  simp only [short_ne_long, long_eq_long, if_true, if_false]
  rw [abs_of_nonneg (by linarith)]
  by_cases hlt : ((pickTP (tp1CandidatesLong entry risk tf bb levels fibs swings)
      entry "LONG").2 - entry) / risk < MIN_RR_TP1 tf
  · rw [if_pos hlt]
  · rw [if_neg hlt]
    push_neg at hlt
    have h1 : MIN_RR_TP1 tf * risk
        ≤ (pickTP (tp1CandidatesLong entry risk tf bb levels fibs swings) entry "LONG").2
          - entry := (le_div_iff₀ hrisk).mp hlt
    linarith

theorem tp1Final_short_eq {entry : ℚ} {direction tf : String} {risk : ℚ} {bb : BBDict}
    {levels : List PriceLevel} {fibs : Option FibDict} {swings : List SwingPoint}
    (hrisk : 0 < risk) (hd : ¬ direction = "LONG") :
    (tp1Final entry direction tf risk bb levels fibs swings).2
      = entry - risk * MIN_RR_TP1 tf := by
  have hfb : ("atr_fallback", entry - risk * MIN_RR_TP1 tf)
      ∈ tp1CandidatesShort entry risk tf bb levels fibs swings := by
    unfold tp1CandidatesShort
    simp [List.mem_append]
  have hlt0 : entry - risk * MIN_RR_TP1 tf < entry := by
    nlinarith [MIN_RR_TP1_pos tf]
  obtain ⟨hlt2, hge2⟩ := pickTP_short_bounds hfb hlt0 hd
  unfold tp1Final calcTP1
  simp only [if_neg hd]
  rw [abs_of_nonpos (by linarith)]
  by_cases hlt : -((pickTP (tp1CandidatesShort entry risk tf bb levels fibs swings)
      entry direction).2 - entry) / risk < MIN_RR_TP1 tf
  · rw [if_pos hlt]
  · rw [if_neg hlt]
    push_neg at hlt
    have h1 : MIN_RR_TP1 tf * risk
        ≤ -((pickTP (tp1CandidatesShort entry risk tf bb levels fibs swings) entry direction).2
          - entry) := (le_div_iff₀ hrisk).mp hlt
    linarith

theorem tp2Final_long_eq {entry : ℚ} {tf : String} {risk : ℚ} {bb : BBDict}
    {levels : List PriceLevel} {fibs : Option FibDict} {tp1v : ℚ}
    (hrisk : 0 < risk) :
    (tp2Final entry "LONG" tf risk bb levels fibs tp1v).2
      = entry + risk * MIN_RR_TP2 tf := by
  have hfb : ("atr_fallback", entry + risk * MIN_RR_TP2 tf)
      ∈ tp2CandidatesLong entry risk tp1v tf bb levels fibs := by
    unfold tp2CandidatesLong
    simp [List.mem_append]
  have hgt : entry < entry + risk * MIN_RR_TP2 tf := by
    nlinarith [MIN_RR_TP2_pos tf]
  obtain ⟨hgt2, hle2⟩ := pickTP_long_bounds hfb hgt
  unfold tp2Final calcTP2
  simp only [short_ne_long, long_eq_long, if_true, if_false]
  rw [abs_of_nonneg (by linarith)]
  by_cases hlt : ((pickTP (tp2CandidatesLong entry risk tp1v tf bb levels fibs)
      entry "LONG").2 - entry) / risk < MIN_RR_TP2 tf
  · rw [if_pos hlt]
  · rw [if_neg hlt]
    push_neg at hlt
    have h1 : MIN_RR_TP2 tf * risk
        ≤ (pickTP (tp2CandidatesLong entry risk tp1v tf bb levels fibs) entry "LONG").2
          - entry := (le_div_iff₀ hrisk).mp hlt
    linarith

theorem tp2Final_short_eq {entry : ℚ} {direction tf : String} {risk : ℚ} {bb : BBDict}
    {levels : List PriceLevel} {fibs : Option FibDict} {tp1v : ℚ}
    (hrisk : 0 < risk) (hd : ¬ direction = "LONG") :
    (tp2Final entry direction tf risk bb levels fibs tp1v).2
      = entry - risk * MIN_RR_TP2 tf := by
  have hfb : ("atr_fallback", entry - risk * MIN_RR_TP2 tf)
      ∈ tp2CandidatesShort entry risk tp1v tf bb levels fibs := by
    unfold tp2CandidatesShort
    simp [List.mem_append]
  have hlt0 : entry - risk * MIN_RR_TP2 tf < entry := by
    nlinarith [MIN_RR_TP2_pos tf]
  obtain ⟨hlt2, hge2⟩ := pickTP_short_bounds hfb hlt0 hd
  unfold tp2Final calcTP2
  simp only [if_neg hd]
  rw [abs_of_nonpos (by linarith)]
  by_cases hlt : -((pickTP (tp2CandidatesShort entry risk tp1v tf bb levels fibs)
      entry direction).2 - entry) / risk < MIN_RR_TP2 tf
  · rw [if_pos hlt]
  · rw [if_neg hlt]
    push_neg at hlt
    have h1 : MIN_RR_TP2 tf * risk
        ≤ -((pickTP (tp2CandidatesShort entry risk tp1v tf bb levels fibs) entry direction).2
          - entry) := (le_div_iff₀ hrisk).mp hlt
    linarith

/-- C2 (amended): every valid TP/SL result respects the per-timeframe caps and
minimum R:R values on its reported fields, and the strict price ordering
sl < entry < tp1 < tp2 (reversed for non-LONG) holds for the pre-rounding
values, of which the reported sl/tp1/tp2 are the 2-decimal roundings (the
roundings themselves can coincide when ATR is tiny relative to entry). -/
theorem C2_amended_valid_invariants (entry : ℚ) (direction timeframe : String) (atr : ℚ)
    (bb : BBDict) (levels : List PriceLevel) (fibs : Option FibDict)
    (swings : List SwingPoint) (f : TPSLFields)
    (hres : tpslCalculate entry direction timeframe atr bb levels fibs swings = .valid f) :
    f.sl_pct ≤ MAX_SL_PERCENT timeframe
    ∧ MIN_RR_TP1 timeframe ≤ f.rr_tp1
    ∧ MIN_RR_TP2 timeframe ≤ f.rr_tp2
    ∧ ∃ slE tp1E tp2E : ℚ,
        f.sl = round2 slE ∧ f.tp1 = round2 tp1E ∧ f.tp2 = round2 tp2E
        ∧ (direction = "LONG" → slE < entry ∧ entry < tp1E ∧ tp1E < tp2E)
        ∧ (¬ direction = "LONG" → tp2E < tp1E ∧ tp1E < entry ∧ entry < slE) := by
  unfold tpslCalculate at hres
  by_cases hatr : atr ≤ 0
  · rw [if_pos hatr] at hres
    exact TPSLResult.noConfusion hres
  rw [if_neg hatr] at hres
  dsimp only at hres
  push_neg at hatr
  have hbuf : 0 < atr * ATR_BUFFER timeframe := mul_pos hatr (ATR_BUFFER_pos timeframe)
  set slm := slAfterRetry entry direction timeframe (atr * ATR_BUFFER timeframe)
      bb levels fibs swings with hslm_def
  by_cases hcap : |entry - slm.2| / entry * 100 > MAX_SL_PERCENT timeframe
  · rw [if_pos hcap] at hres
    exact TPSLResult.noConfusion hres
  rw [if_neg hcap] at hres
  by_cases hr0 : |entry - slm.2| = 0
  · rw [if_pos hr0] at hres
    exact TPSLResult.noConfusion hres
  rw [if_neg hr0] at hres
  injection hres with hfeq
  subst hfeq
  push_neg at hcap
  have hriskpos : 0 < |entry - slm.2| := lt_of_le_of_ne (abs_nonneg _) (Ne.symm hr0)
  refine ⟨round2_le_MAX_SL timeframe hcap, ?_, ?_, slm.2,
    (tp1Final entry direction timeframe (|entry - slm.2|) bb levels fibs swings).2,
    (tp2Final entry direction timeframe (|entry - slm.2|) bb levels fibs
      (tp1Final entry direction timeframe (|entry - slm.2|) bb levels fibs swings).2).2,
    rfl, rfl, rfl, ?_, ?_⟩
  · by_cases hdir : direction = "LONG"
    · subst hdir
      dsimp only
      rw [tp1Final_long_eq hriskpos]
      have harg : |entry + |entry - slm.2| * MIN_RR_TP1 timeframe - entry| / |entry - slm.2|
          = MIN_RR_TP1 timeframe := by
        rw [show entry + |entry - slm.2| * MIN_RR_TP1 timeframe - entry
            = |entry - slm.2| * MIN_RR_TP1 timeframe by ring]
        rw [abs_of_nonneg (by nlinarith [MIN_RR_TP1_pos timeframe, hriskpos])]
        rw [mul_comm, mul_div_assoc, div_self (ne_of_gt hriskpos), mul_one]
      rw [harg, round2_MIN_RR_TP1]
    · dsimp only
      rw [tp1Final_short_eq hriskpos hdir]
      have harg : |entry - |entry - slm.2| * MIN_RR_TP1 timeframe - entry| / |entry - slm.2|
          = MIN_RR_TP1 timeframe := by
        rw [show entry - |entry - slm.2| * MIN_RR_TP1 timeframe - entry
            = -(|entry - slm.2| * MIN_RR_TP1 timeframe) by ring]
        rw [abs_neg, abs_of_nonneg (by nlinarith [MIN_RR_TP1_pos timeframe, hriskpos])]
        rw [mul_comm, mul_div_assoc, div_self (ne_of_gt hriskpos), mul_one]
      rw [harg, round2_MIN_RR_TP1]
  · by_cases hdir : direction = "LONG"
    · subst hdir
      dsimp only
      rw [tp2Final_long_eq hriskpos]
      have harg : |entry + |entry - slm.2| * MIN_RR_TP2 timeframe - entry| / |entry - slm.2|
          = MIN_RR_TP2 timeframe := by
        rw [show entry + |entry - slm.2| * MIN_RR_TP2 timeframe - entry
            = |entry - slm.2| * MIN_RR_TP2 timeframe by ring]
        rw [abs_of_nonneg (by nlinarith [MIN_RR_TP2_pos timeframe, hriskpos])]
        rw [mul_comm, mul_div_assoc, div_self (ne_of_gt hriskpos), mul_one]
      rw [harg, round2_MIN_RR_TP2]
    · dsimp only
      rw [tp2Final_short_eq hriskpos hdir]
      have harg : |entry - |entry - slm.2| * MIN_RR_TP2 timeframe - entry| / |entry - slm.2|
          = MIN_RR_TP2 timeframe := by
        rw [show entry - |entry - slm.2| * MIN_RR_TP2 timeframe - entry
            = -(|entry - slm.2| * MIN_RR_TP2 timeframe) by ring]
        rw [abs_neg, abs_of_nonneg (by nlinarith [MIN_RR_TP2_pos timeframe, hriskpos])]
        rw [mul_comm, mul_div_assoc, div_self (ne_of_gt hriskpos), mul_one]
      rw [harg, round2_MIN_RR_TP2]
  · intro hdir
    subst hdir
    rw [tp1Final_long_eq hriskpos, tp2Final_long_eq hriskpos]
    refine ⟨slAfterRetry_long_lt hbuf, ?_, ?_⟩
    · linarith [mul_pos hriskpos (MIN_RR_TP1_pos timeframe)]
    · nlinarith [mul_pos hriskpos (sub_pos.mpr (MIN_RR_TP1_lt_TP2 timeframe))]
  · intro hdir
    rw [tp1Final_short_eq hriskpos hdir, tp2Final_short_eq hriskpos hdir]
    refine ⟨?_, ?_, slAfterRetry_short_gt hbuf hdir⟩
    · nlinarith [mul_pos hriskpos (sub_pos.mpr (MIN_RR_TP1_lt_TP2 timeframe))]
    · linarith [mul_pos hriskpos (MIN_RR_TP1_pos timeframe)]

/-- C2 witness: the invariants at the 1D ATR-fallback scenario. -/
theorem C2_amended_valid_invariants_witness :
    ({ sl := 97000, tp1 := 104500, tp2 := 109000, sl_pct := 3, tp1_pct := 4.5,
       tp2_pct := 9, rr_tp1 := 1.5, rr_tp2 := 3, sl_method := "atr_fallback",
       tp1_method := "atr_fallback", tp2_method := "atr_fallback" } : TPSLFields).sl_pct
        ≤ MAX_SL_PERCENT "1D"
    ∧ MIN_RR_TP1 "1D"
        ≤ ({ sl := 97000, tp1 := 104500, tp2 := 109000, sl_pct := 3, tp1_pct := 4.5,
             tp2_pct := 9, rr_tp1 := 1.5, rr_tp2 := 3, sl_method := "atr_fallback",
             tp1_method := "atr_fallback", tp2_method := "atr_fallback" } : TPSLFields).rr_tp1
    ∧ MIN_RR_TP2 "1D"
        ≤ ({ sl := 97000, tp1 := 104500, tp2 := 109000, sl_pct := 3, tp1_pct := 4.5,
             tp2_pct := 9, rr_tp1 := 1.5, rr_tp2 := 3, sl_method := "atr_fallback",
             tp1_method := "atr_fallback", tp2_method := "atr_fallback" } : TPSLFields).rr_tp2
    ∧ ∃ slE tp1E tp2E : ℚ,
        ({ sl := 97000, tp1 := 104500, tp2 := 109000, sl_pct := 3, tp1_pct := 4.5,
           tp2_pct := 9, rr_tp1 := 1.5, rr_tp2 := 3, sl_method := "atr_fallback",
           tp1_method := "atr_fallback", tp2_method := "atr_fallback" } : TPSLFields).sl
            = round2 slE
        ∧ ({ sl := 97000, tp1 := 104500, tp2 := 109000, sl_pct := 3, tp1_pct := 4.5,
             tp2_pct := 9, rr_tp1 := 1.5, rr_tp2 := 3, sl_method := "atr_fallback",
             tp1_method := "atr_fallback", tp2_method := "atr_fallback" } : TPSLFields).tp1
            = round2 tp1E
        ∧ ({ sl := 97000, tp1 := 104500, tp2 := 109000, sl_pct := 3, tp1_pct := 4.5,
             tp2_pct := 9, rr_tp1 := 1.5, rr_tp2 := 3, sl_method := "atr_fallback",
             tp1_method := "atr_fallback", tp2_method := "atr_fallback" } : TPSLFields).tp2
            = round2 tp2E
        ∧ ("LONG" = "LONG" → slE < 100000 ∧ 100000 < tp1E ∧ tp1E < tp2E)
        ∧ (¬ "LONG" = "LONG" → tp2E < tp1E ∧ tp1E < 100000 ∧ 100000 < slE) :=
  C2_amended_valid_invariants 100000 "LONG" "1D" 1000 {} [] none [] _ c1Run_eval

/-- C2 counterexample: with ATR tiny relative to entry (atr = 1/500, 1H) the
result is valid but the reported, 2-decimal-rounded sl and tp1 both equal the
entry 100000, so the claimed strict ordering sl < entry < tp1 fails on the
reported result fields (it holds only before rounding). -/
theorem C2_counterexample :
    tpslCalculate 100000 "LONG" "1H" (1/500) {} [] none []
      = .valid { sl := 100000, tp1 := 100000, tp2 := 10000001/100,
                 sl_pct := 0, tp1_pct := 0, tp2_pct := 0,
                 rr_tp1 := 1.2, rr_tp2 := 2,
                 sl_method := "atr_fallback", tp1_method := "atr_fallback",
                 tp2_method := "atr_fallback" }
    ∧ ¬ ((100000 : ℚ) < 100000) := by
  constructor
  · have e1 : round2 (99999997/1000 : ℚ) = 100000 := by
      rw [round2, roundHalfEven_eval (z := 9999999) (by norm_num) (by norm_num)]
      norm_num
    have e2 : round2 (250000009/2500 : ℚ) = 100000 := by
      rw [round2, roundHalfEven_eval (z := 10000000) (by norm_num) (by norm_num)]
      norm_num
    have e3 : round2 (50000003/500 : ℚ) = 10000001/100 := by
      rw [round2, roundHalfEven_eval (z := 10000000) (by norm_num) (by norm_num)]
      norm_num
    have e4 : round2 (3/1000000 : ℚ) = 0 := by
      rw [round2, roundHalfEven_eval (z := 0) (by norm_num) (by norm_num)]
      norm_num
    have e5 : round2 (9/2500000 : ℚ) = 0 := by
      rw [round2, roundHalfEven_eval (z := 0) (by norm_num) (by norm_num)]
      norm_num
    have e6 : round2 (3/500000 : ℚ) = 0 := by
      rw [round2, roundHalfEven_eval (z := 0) (by norm_num) (by norm_num)]
      norm_num
    have e7 : round2 (6/5 : ℚ) = 6/5 := round2_eq_self_of_int_mul (k := 120) (by norm_num)
    have e8 : round2 (2 : ℚ) = 2 := round2_eq_self_of_int_mul (k := 200) (by norm_num)
    norm_num +decide [tpslCalculate, slAfterRetry, tp1Final, tp2Final,
      calcSL, calcTP1, calcTP2, pickTP,
      slCandidatesLong, tp1CandidatesLong, tp2CandidatesLong, firstMaxBy, firstMinBy,
      ATR_BUFFER, MAX_SL_PERCENT, MIN_RR_TP1, MIN_RR_TP2, atrFallbackSL,
      List.filter, ratAbs_ite, e1, e2, e3, e4, e5, e6, e7, e8]
  · norm_num

/-! ## Fibonacci confluence detector (`trading/fibonacci/confluence_detector.py`) -/

/-- One flattened Fibonacci level (`_collect_levels` output). -/
structure FibLvl where
  price : ℚ
  ratio : ℚ
  label : String
  entry_quality : ℚ
  timeframe : String
  direction : String
  type : String
deriving DecidableEq, Repr

/-- One retracement/extension entry of a per-timeframe analysis dict. -/
structure FibEntry where
  price : ℚ
  ratio : ℚ
  label : String
  entry_quality : ℚ := 0
deriving DecidableEq, Repr

/-- One timeframe's analysis dict (`direction` defaults to "LONG" via `.get`). -/
structure TFFib where
  direction : String := "LONG"
  retracements : List FibEntry := []
  extensions : List FibEntry := []
deriving DecidableEq, Repr

/-- `_collect_levels` (dict iteration order is insertion order). -/
def collectLevels (fibData : List (String × TFFib)) : List FibLvl :=
  fibData.flatMap (fun p =>
    p.2.retracements.map (fun r =>
      ⟨r.price, r.ratio, r.label, r.entry_quality, p.1, p.2.direction, "retracement"⟩)
    ++ p.2.extensions.map (fun e =>
      ⟨e.price, e.ratio, e.label, 0, p.1, p.2.direction, "extension"⟩))

/-- Output confluence dict. -/
structure Confl where
  price : ℚ
  timeframes : List String
  fib_ratios : List ℚ
  fib_labels : List String
  directions : List String
  num_timeframes : ℕ
  max_quality : ℚ
deriving DecidableEq, Repr

/-- First-occurrence deduplication; CPython's `list({...})` iterates the set in
an unspecified order, and only the cardinality and membership of these lists
are relied upon downstream. -/
def dedupKeep {α : Type} [DecidableEq α] (l : List α) : List α :=
  l.foldl (fun acc x => if x ∈ acc then acc else acc ++ [x]) []

/-- Python's `max(entry_quality for lv in cluster)`. -/
def maxQuality : List FibLvl → ℚ
  | [] => 0
  | c :: cs => cs.foldl (fun a x => max a x.entry_quality) c.entry_quality

/-- Building the confluence record from a cluster. -/
def mkConfluence (cluster : List FibLvl) : Confl :=
  let tfs := dedupKeep (cluster.map (fun lv => lv.timeframe))
  { price := round2 ((cluster.map (fun lv => lv.price)).sum / (cluster.length : ℚ)),
    timeframes := tfs,
    fib_ratios := (dedupKeep (cluster.map (fun lv => lv.ratio))).mergeSort
      (fun a b => a ≤ b),
    fib_labels := dedupKeep (cluster.map (fun lv => lv.label)),
    directions := dedupKeep (cluster.map (fun lv => lv.direction)),
    num_timeframes := tfs.length,
    max_quality := maxQuality cluster }

theorem length_dropWhile_le {α : Type} (p : α → Bool) (l : List α) :
    (l.dropWhile p).length ≤ l.length := by
  induction l with
  | nil => simp
  | cons a l ih =>
    rw [List.dropWhile_cons]
    split
    · exact le_trans ih (Nat.le_succ _)
    · simp

/-- `_cluster_levels` on the price-sorted list: greedily absorb consecutive
levels within tolerance of the first (base) member — the inner loop `break`s at
the first out-of-range level, and `continue`s past every level when the base
price is zero — and keep the cluster only when it spans ≥ 2 timeframes. -/
def clusterGo (tol : ℚ) : List FibLvl → List Confl
  | [] => []
  | base :: rest =>
    if base.price = 0 then
      (if 2 ≤ (dedupKeep ([base].map (fun lv => lv.timeframe))).length
       then [mkConfluence [base]] else [])
      ++ clusterGo tol rest
    else
      let grabbed := rest.takeWhile (fun c => |c.price - base.price| / base.price * 100 ≤ tol)
      (if 2 ≤ (dedupKeep ((base :: grabbed).map (fun lv => lv.timeframe))).length
       then [mkConfluence (base :: grabbed)] else [])
      ++ clusterGo tol (rest.dropWhile (fun c => |c.price - base.price| / base.price * 100 ≤ tol))
termination_by l => l.length
decreasing_by
  all_goals simp only [List.length_cons]
  · omega
  · exact Nat.lt_succ_of_le (length_dropWhile_le _ _)

/-- Descending lexicographic order on `(num_timeframes, max_quality)` used by
`sort(key=..., reverse=True)`. -/
def confDescLe (a b : Confl) : Bool :=
  b.num_timeframes < a.num_timeframes
    ∨ (b.num_timeframes = a.num_timeframes ∧ b.max_quality ≤ a.max_quality)

/-- `find_confluences`. -/
def findConfluences (fibData : List (String × TFFib)) (tol : ℚ := 0.5) : List Confl :=
  let all := collectLevels fibData
  if all.length < 2 then []
  else
    let sorted := all.mergeSort (fun a b => a.price ≤ b.price)
    (clusterGo tol sorted).mergeSort confDescLe

theorem confDescLe_trans (a b c : Confl) (h1 : confDescLe a b) (h2 : confDescLe b c) :
    confDescLe a c := by
  simp only [confDescLe, decide_eq_true_eq] at *
  rcases h1 with h1 | ⟨h1e, h1q⟩ <;> rcases h2 with h2 | ⟨h2e, h2q⟩
  · left; omega
  · left; omega
  · left; omega
  · right; exact ⟨by omega, le_trans h2q h1q⟩

theorem confDescLe_total (a b : Confl) : confDescLe a b || confDescLe b a := by
  simp only [confDescLe, Bool.or_eq_true, decide_eq_true_eq]
  by_cases hn : a.num_timeframes = b.num_timeframes
  · rcases le_total b.max_quality a.max_quality with h | h
    · exact Or.inl (Or.inr ⟨hn.symm, h⟩)
    · exact Or.inr (Or.inr ⟨hn, h⟩)
  · rcases Nat.lt_or_ge a.num_timeframes b.num_timeframes with h | h
    · exact Or.inr (Or.inl h)
    · exact Or.inl (Or.inl (by omega))

/-- Every confluence emitted by the sweep is `mkConfluence` of its own cluster:
a nonempty sublist of the swept list spanning ≥ 2 distinct timeframes. -/
theorem clusterGo_mem (tol : ℚ) : ∀ (n : ℕ) (l : List FibLvl), l.length ≤ n →
    ∀ c ∈ clusterGo tol l,
      ∃ ms : List FibLvl, ms ≠ [] ∧ ms.Sublist l ∧
        2 ≤ (dedupKeep (ms.map (fun lv => lv.timeframe))).length ∧
        c = mkConfluence ms := by
  intro n
  induction n with
  | zero =>
    intro l hl c hc
    have : l = [] := List.eq_nil_of_length_eq_zero (Nat.le_zero.mp hl)
    subst this
    simp [clusterGo] at hc
  | succ n ih =>
    intro l hl c hc
    match l with
    | [] => simp [clusterGo] at hc
    | base :: rest =>
      simp only [clusterGo] at hc
      have hrest : rest.length ≤ n := by
        simp only [List.length_cons] at hl; omega
      split_ifs at hc with h0 hg hg
      · rcases List.mem_append.mp hc with hc | hc
        · rw [List.mem_singleton] at hc
          subst hc
          exact ⟨[base], by simp, (List.nil_sublist rest).cons₂ base, hg, rfl⟩
        · obtain ⟨ms, h1, h2, h3, h4⟩ := ih rest hrest c hc
          exact ⟨ms, h1, h2.cons base, h3, h4⟩
      · rcases List.mem_append.mp hc with hc | hc
        · simp at hc
        · obtain ⟨ms, h1, h2, h3, h4⟩ := ih rest hrest c hc
          exact ⟨ms, h1, h2.cons base, h3, h4⟩
      · rcases List.mem_append.mp hc with hc | hc
        · rw [List.mem_singleton] at hc
          subst hc
          exact ⟨_, List.cons_ne_nil _ _, (List.takeWhile_sublist _).cons₂ base, hg, rfl⟩
        · obtain ⟨ms, h1, h2, h3, h4⟩ := ih _ (le_trans (length_dropWhile_le _ _) hrest) c hc
          exact ⟨ms, h1, (h2.trans (List.dropWhile_sublist _)).cons base, h3, h4⟩
      · rcases List.mem_append.mp hc with hc | hc
        · simp at hc
        · obtain ⟨ms, h1, h2, h3, h4⟩ := ih _ (le_trans (length_dropWhile_le _ _) hrest) c hc
          exact ⟨ms, h1, (h2.trans (List.dropWhile_sublist _)).cons base, h3, h4⟩

/-- C8: every confluence emitted by `find_confluences` spans at least two
distinct timeframes, is built (`mkConfluence`) from its own cluster — a
nonempty sublist of the price-sorted collected levels — and its price is the
ROUNDED (2-decimal) arithmetic mean of that cluster's members' prices, not the
exact mean the claim states; the output list is sorted descending by
`(num_timeframes, max_quality)`. -/
theorem C8_amended_confluence_invariants (fibData : List (String × TFFib)) (tol : ℚ) :
    (∀ c ∈ findConfluences fibData tol,
        2 ≤ c.num_timeframes ∧ ∃ ms : List FibLvl, ms ≠ []
          ∧ ms.Sublist ((collectLevels fibData).mergeSort (fun a b => a.price ≤ b.price))
          ∧ c = mkConfluence ms
          ∧ c.price = round2 ((ms.map (fun lv => lv.price)).sum / (ms.length : ℚ)))
    ∧ (findConfluences fibData tol).Pairwise (fun a b =>
        b.num_timeframes < a.num_timeframes
          ∨ (b.num_timeframes = a.num_timeframes ∧ b.max_quality ≤ a.max_quality)) := by
  rw [findConfluences]
  split_ifs with hlen
  · exact ⟨by intro c hc; simp at hc, List.Pairwise.nil⟩
  · constructor
    · intro c hc
      rw [List.mem_mergeSort] at hc
      obtain ⟨ms, h1, hsub, hded, hceq⟩ := clusterGo_mem tol _ _ le_rfl c hc
      subst hceq
      exact ⟨hded, ms, h1, hsub, rfl, rfl⟩
    · have hs := List.sorted_mergeSort confDescLe_trans confDescLe_total
        (clusterGo tol ((collectLevels fibData).mergeSort (fun a b => a.price ≤ b.price)))
      exact hs.imp (fun hab => by simpa [confDescLe, decide_eq_true_eq] using hab)

/-- Scenario input: three retracement levels on two timeframes, prices already
ascending, all within 0.5% of each other. -/
def c8Data : List (String × TFFib) :=
  [("4H", { retracements := [⟨100, 0.382, "Moderate", 5⟩] }),
   ("1H", { retracements := [⟨100, 0.5, "Mid", 6⟩, ⟨100.01, 0.618, "Golden", 9⟩] })]

def c8l1 : FibLvl := ⟨100, 0.382, "Moderate", 5, "4H", "LONG", "retracement"⟩

def c8l2 : FibLvl := ⟨100, 0.5, "Mid", 6, "1H", "LONG", "retracement"⟩

def c8l3 : FibLvl := ⟨100.01, 0.618, "Golden", 9, "1H", "LONG", "retracement"⟩

theorem c8_collect : collectLevels c8Data = [c8l1, c8l2, c8l3] := rfl

theorem c8_sorted :
    (collectLevels c8Data).mergeSort (fun a b => a.price ≤ b.price) = [c8l1, c8l2, c8l3] := by
  rw [c8_collect]
  apply List.mergeSort_of_sorted
  simp only [List.pairwise_cons, List.mem_cons, List.mem_singleton, decide_eq_true_eq]
  norm_num [c8l1, c8l2, c8l3]

theorem c8_cluster :
    clusterGo (1/2) [c8l1, c8l2, c8l3] = [mkConfluence [c8l1, c8l2, c8l3]] := by
  rw [clusterGo]
  rw [if_neg (by norm_num [c8l1])]
  have htw : [c8l2, c8l3].takeWhile
      (fun c => |c.price - c8l1.price| / c8l1.price * 100 ≤ (1/2 : ℚ)) = [c8l2, c8l3] := by
    simp only [List.takeWhile_cons, List.takeWhile_nil, decide_eq_true_eq]
    norm_num [c8l1, c8l2, c8l3, ratAbs_ite]
  have hdw : [c8l2, c8l3].dropWhile
      (fun c => |c.price - c8l1.price| / c8l1.price * 100 ≤ (1/2 : ℚ)) = [] := by
    simp only [List.dropWhile_cons, List.dropWhile_nil, decide_eq_true_eq]
    norm_num [c8l1, c8l2, c8l3, ratAbs_ite]
  rw [htw, hdw, clusterGo]
  dsimp only
  rw [if_pos]
  · simp
  · norm_num +decide [dedupKeep, c8l1, c8l2, c8l3, List.foldl]

theorem c8_eval : findConfluences c8Data (1/2) = [mkConfluence [c8l1, c8l2, c8l3]] := by
  have hms := c8_sorted
  rw [c8_collect] at hms
  rw [findConfluences]
  simp only [c8_collect]
  rw [if_neg (by simp)]
  rw [hms, c8_cluster]
  apply List.mergeSort_of_sorted
  simp

theorem c8_price : (mkConfluence [c8l1, c8l2, c8l3]).price = 100 := by
  have hm : (([c8l1, c8l2, c8l3].map (fun lv => lv.price)).sum /
      (([c8l1, c8l2, c8l3] : List FibLvl).length : ℚ)) = 30001/300 := by
    norm_num [c8l1, c8l2, c8l3]
  show round2 (([c8l1, c8l2, c8l3].map (fun lv => lv.price)).sum /
      (([c8l1, c8l2, c8l3] : List FibLvl).length : ℚ)) = 100
  rw [hm, round2, roundHalfEven_eval (z := 10000) (by norm_num) (by norm_num)]
  norm_num

/-- C8 counterexample: on three levels (prices 100, 100, 100.01) from two
timeframes the detector emits one confluence whose cluster is all three
collected levels (see the evaluation of `findConfluences`), with reported
price 100 — but the arithmetic mean of the members' prices is 30001/300
= 100.00333..., so the emitted price is the ROUNDED mean, not the mean the
claim states. -/
theorem C8_counterexample :
    (findConfluences c8Data (1/2)).map (fun c => c.price) = [100]
    ∧ ((collectLevels c8Data).map (fun lv => lv.price)).sum /
        ((collectLevels c8Data).length : ℚ) ≠ 100 := by
  constructor
  · rw [c8_eval]
    simp [c8_price]
  · rw [c8_collect]
    norm_num [c8l1, c8l2, c8l3]

theorem C8_amended_confluence_invariants_witness :
    2 ≤ (mkConfluence [c8l1, c8l2, c8l3]).num_timeframes
    ∧ ∃ ms : List FibLvl, ms ≠ []
        ∧ ms.Sublist ((collectLevels c8Data).mergeSort (fun a b => a.price ≤ b.price))
        ∧ mkConfluence [c8l1, c8l2, c8l3] = mkConfluence ms
        ∧ (mkConfluence [c8l1, c8l2, c8l3]).price =
            round2 ((ms.map (fun lv => lv.price)).sum / (ms.length : ℚ)) :=
  (C8_amended_confluence_invariants c8Data (1/2)).1 (mkConfluence [c8l1, c8l2, c8l3])
    (by rw [c8_eval]; simp)

/-! ## Swing detector (`trading/levels/swing_detector.py`) -/

/-- One OHLCV row (only the columns the detector reads). -/
structure OHLCBar where
  date : String
  high : ℚ
  low : ℚ
  close : ℚ
deriving DecidableEq, Repr

instance : Inhabited OHLCBar := ⟨⟨"", 0, 0, 0⟩⟩

/-- `PIVOT_BARS.get(timeframe, 10)`. -/
def pivotBars (timeframe : String) : ℕ :=
  if timeframe = "1H" then 5
  else if timeframe = "4H" then 7
  else if timeframe = "1D" then 10
  else if timeframe = "1W" then 5
  else 10

def highAt (bars : List OHLCBar) (i : ℕ) : ℚ := (bars.getD i default).high

def lowAt (bars : List OHLCBar) (i : ℕ) : ℚ := (bars.getD i default).low

def dateAt (bars : List OHLCBar) (i : ℕ) : String := (bars.getD i default).date

/-- The inner `for j in range(i-n, i+n+1)` loop of the swing-high check: no
other bar in the window has a strictly higher high (callers have `n ≤ i`). -/
def isSwingHigh (bars : List OHLCBar) (n i : ℕ) : Bool :=
  (List.range' (i - n) (2*n+1)).all (fun j => j == i || !(highAt bars j > highAt bars i))

/-- Swing-low check: no other bar in the window has a strictly lower low. -/
def isSwingLow (bars : List OHLCBar) (n i : ℕ) : Bool :=
  (List.range' (i - n) (2*n+1)).all (fun j => j == i || !(lowAt bars j < lowAt bars i))

/-- `_percent_move_after`. -/
def pctMoveAfter (closes : List ℚ) (idx : ℕ) (direction : String) : ℚ :=
  let lookforward := 20
  let e := min (idx + lookforward + 1) closes.length
  if idx + 1 ≥ e then 0
  else
    let base := closes.getD idx 0
    if base = 0 then 0
    else
      match (closes.drop (idx+1)).take (e - (idx+1)) with
      | [] => 0
      | c :: cs =>
        if direction = "down" then
          round2 (|(base - cs.foldl min c) / base| * 100)
        else
          round2 (|(cs.foldl max c - base) / base| * 100)

/-- `detect_swings`: per pivot index, emit the swing-high record (if any) then
the swing-low record (if any), in index order. -/
def detect_swings (timeframe : String) (bars : List OHLCBar) : List SwingPoint :=
  let n := pivotBars timeframe
  let total := bars.length
  if total < 2*n + 1 then []
  else
    (List.range' n (total - 2*n)).flatMap (fun i =>
      (if isSwingHigh bars n i then
        [{ price := highAt bars i, type := "high", date := dateAt bars i,
           timeframe := timeframe,
           percent_move := pctMoveAfter (bars.map (fun b => b.close)) i "down" }]
       else [])
      ++ (if isSwingLow bars n i then
        [{ price := lowAt bars i, type := "low", date := dateAt bars i,
           timeframe := timeframe,
           percent_move := pctMoveAfter (bars.map (fun b => b.close)) i "up" }]
       else []))

/-- Mirror transform: negate prices (which swaps the high/low roles) and
reverse the series in time, keeping each bar's date. -/
def mirrorBar (b : OHLCBar) : OHLCBar := ⟨b.date, -b.low, -b.high, -b.close⟩

def mirrorBars (bars : List OHLCBar) : List OHLCBar := (bars.map mirrorBar).reverse

def flipType (t : String) : String := if t = "high" then "low" else "high"

theorem flatMap_rev {α β : Type} (l : List α) (f : α → List β) :
    (l.flatMap f).reverse = l.reverse.flatMap (fun a => (f a).reverse) := by
  induction l with
  | nil => simp
  | cons a t ih => simp [List.flatMap_cons, ih]

theorem flatMap_congrAll {α β : Type} {l : List α} {f g : α → List β}
    (h : ∀ a ∈ l, f a = g a) : l.flatMap f = l.flatMap g := by
  induction l with
  | nil => simp
  | cons a t ih =>
    simp only [List.flatMap_cons]
    rw [h a (by simp), ih (fun b hb => h b (by simp [hb]))]

theorem getD_mirrorBars (bars : List OHLCBar) (i : ℕ) (h : i < bars.length) :
    (mirrorBars bars).getD (bars.length - 1 - i) default = mirrorBar (bars.getD i default) := by
  rw [mirrorBars, List.getD_eq_getElem?_getD, List.getD_eq_getElem?_getD]
  rw [List.getElem?_reverse (by simp only [List.length_map]; omega)]
  simp only [List.length_map]
  have he : bars.length - 1 - (bars.length - 1 - i) = i := by omega
  rw [he, List.getElem?_map, List.getElem?_eq_getElem h]
  rfl

theorem highAt_mirror (bars : List OHLCBar) (i : ℕ) (h : i < bars.length) :
    highAt (mirrorBars bars) (bars.length - 1 - i) = -(lowAt bars i) := by
  rw [highAt, lowAt, getD_mirrorBars bars i h]; rfl

theorem lowAt_mirror (bars : List OHLCBar) (i : ℕ) (h : i < bars.length) :
    lowAt (mirrorBars bars) (bars.length - 1 - i) = -(highAt bars i) := by
  rw [lowAt, highAt, getD_mirrorBars bars i h]; rfl

theorem dateAt_mirror (bars : List OHLCBar) (i : ℕ) (h : i < bars.length) :
    dateAt (mirrorBars bars) (bars.length - 1 - i) = dateAt bars i := by
  rw [dateAt, dateAt, getD_mirrorBars bars i h]; rfl

theorem isSwingHigh_mirror (bars : List OHLCBar) (n i : ℕ)
    (hn : n ≤ i) (hN : i + n < bars.length) :
    isSwingHigh (mirrorBars bars) n (bars.length - 1 - i) = isSwingLow bars n i := by
  apply Bool.coe_iff_coe.mp
  simp only [isSwingHigh, isSwingLow, List.all_eq_true, List.mem_range'_1,
    Bool.or_eq_true, beq_iff_eq, Bool.not_eq_true', decide_eq_false_iff_not, not_lt,
    gt_iff_lt, and_imp]
  constructor
  · intro h j hj1 hj2
    have hjN : j < bars.length := by omega
    have := h (bars.length - 1 - j) (by omega) (by omega)
    rw [highAt_mirror bars j hjN, highAt_mirror bars i (by omega)] at this
    rcases this with heq | hle
    · left; omega
    · right; linarith
  · intro h j hj1 hj2
    have hjle : j ≤ bars.length - 1 := by omega
    have hj' : bars.length - 1 - j < bars.length := by omega
    have hrw : j = bars.length - 1 - (bars.length - 1 - j) := by omega
    rw [hrw, highAt_mirror bars _ hj',
      show bars.length - 1 - i = bars.length - 1 - i from rfl,
      highAt_mirror bars i (by omega)]
    have := h (bars.length - 1 - j) (by omega) (by omega)
    rcases this with heq | hle
    · left; omega
    · right; linarith

theorem isSwingLow_mirror (bars : List OHLCBar) (n i : ℕ)
    (hn : n ≤ i) (hN : i + n < bars.length) :
    isSwingLow (mirrorBars bars) n (bars.length - 1 - i) = isSwingHigh bars n i := by
  apply Bool.coe_iff_coe.mp
  simp only [isSwingHigh, isSwingLow, List.all_eq_true, List.mem_range'_1,
    Bool.or_eq_true, beq_iff_eq, Bool.not_eq_true', decide_eq_false_iff_not, not_lt,
    gt_iff_lt, and_imp]
  constructor
  · intro h j hj1 hj2
    have hjN : j < bars.length := by omega
    have := h (bars.length - 1 - j) (by omega) (by omega)
    rw [lowAt_mirror bars j hjN, lowAt_mirror bars i (by omega)] at this
    rcases this with heq | hle
    · left; omega
    · right; linarith
  · intro h j hj1 hj2
    have hj' : bars.length - 1 - j < bars.length := by omega
    have hrw : j = bars.length - 1 - (bars.length - 1 - j) := by omega
    rw [hrw, lowAt_mirror bars _ hj', lowAt_mirror bars i (by omega)]
    have := h (bars.length - 1 - j) (by omega) (by omega)
    rcases this with heq | hle
    · left; omega
    · right; linarith

/-- C9: swing detection is mirror-symmetric: on the time-reversed,
price-negated series (which swaps the high/low roles bar by bar), the detector
emits exactly the reversed swing list with kinds flipped — each swing high
becomes a swing low at the mirrored position with negated price and the same
date, and vice versa. -/
theorem C9_swing_mirror_symmetry (tf : String) (bars : List OHLCBar) :
    (detect_swings tf (mirrorBars bars)).map (fun s => (s.date, s.type, s.price)) =
      ((detect_swings tf bars).reverse).map (fun s =>
        (s.date, flipType s.type, -s.price)) := by
  have hlen : (mirrorBars bars).length = bars.length := by
    simp [mirrorBars]
  rw [detect_swings, detect_swings, hlen]
  by_cases hsmall : bars.length < 2 * pivotBars tf + 1
  · rw [if_pos hsmall, if_pos hsmall]
    simp
  · rw [if_neg hsmall, if_neg hsmall]
    rw [flatMap_rev, List.reverse_range', List.flatMap_map,
      List.range'_eq_map_range, List.flatMap_map, List.map_flatMap, List.map_flatMap]
    apply flatMap_congrAll
    intro x hx
    rw [List.mem_range] at hx
    have hi : pivotBars tf + (bars.length - 2 * pivotBars tf) - 1 - x =
        bars.length - pivotBars tf - 1 - x := by omega
    rw [hi]
    set n := pivotBars tf with hn
    set i := bars.length - n - 1 - x with hidef
    have hni : n ≤ i := by omega
    have hiN : i + n < bars.length := by omega
    have hk : n + x = bars.length - 1 - i := by omega
    rw [hk, isSwingHigh_mirror bars n i hni hiN, isSwingLow_mirror bars n i hni hiN,
      highAt_mirror bars i (by omega), lowAt_mirror bars i (by omega),
      dateAt_mirror bars i (by omega)]
    rcases hH : isSwingHigh bars n i <;> rcases hL : isSwingLow bars n i <;>
      simp +decide [flipType, List.reverse_append]
